/-
Verification of the engram incremental-sync and hybrid-retrieval engine.

Shallow embedding of:
  - src/knowledge_graph.py   (KnowledgeGraph: SQLite storage layer)
  - src/query/engine.py      (QueryEngine: hybrid keyword + semantic search)
  - src/semantic/chunker.py  (TextChunker)
  - src/semantic/embedder.py (Embedder with persistent cache)
  - src/indexers/gmail_indexer.py (GmailIndexer full/delta sync)

Conventions of the embedding:
  - SQLite TEXT values are Lean String; NULLable columns are Option String.
  - Timestamps are ISO-format strings compared lexicographically, which is
    exactly how SQLite compares the stored TEXT values.
  - Python float scores are modelled as Rat; every score expression in the
    source is of the form min(n * 0.1, 0.8) or 1 - d, which Rat mirrors
    order-faithfully.
  - Python exceptions that the source catches are modelled with Except or
    with explicit outcome flags at the call sites where they are caught.
  - External collaborators (the OpenAI provider, the Gmail API client, the
    ChromaDB nearest-neighbour engine, the sha256 hash) are parameters of
    the model: the claims under verification depend only on how the code in
    src/ reacts to their outputs.
-/
import Mathlib

namespace Engram

/-! ### Generic helpers: Python str.count, SQL LIKE, stable descending sort -/

/-- Python str.lower / SQLite LIKE case folding restricted to ASCII,
implemented over the character list so that concrete instances reduce. -/
def lowerChar (c : Char) : Char :=
  if 'A' ≤ c && c ≤ 'Z' then Char.ofNat (c.toNat + 32) else c

/-- Lowercase a string (ASCII). -/
def lowerStr (s : String) : String := ⟨s.data.map lowerChar⟩

/-- Python str.strip: drop leading and trailing whitespace. -/
def pyStrip (s : String) : String :=
  ⟨((s.data.dropWhile Char.isWhitespace).reverse.dropWhile Char.isWhitespace).reverse⟩

/-- Leading run of characters drawn from a given set. -/
def leadCount (p : Char → Bool) : List Char → Nat
  | [] => 0
  | c :: cs => if p c then leadCount p cs + 1 else 0

/-- Auxiliary scanner for `countOcc`: counts left-to-right non-overlapping
occurrences of a non-empty `needle`, with `skip` characters still to be
skipped after a previous match (Python `str.count` semantics). -/
def countOccA (needle : List Char) : List Char → Nat → Nat
  | [], _ => 0
  | _ :: rest, Nat.succ k => countOccA needle rest k
  | c :: rest, 0 =>
      if needle.isPrefixOf (c :: rest) then
        countOccA needle rest (needle.length - 1) + 1
      else
        countOccA needle rest 0

/-- Python `hay.count(needle)`: non-overlapping occurrences scanning left to
right; an empty needle counts `len(hay) + 1` as in Python. -/
def countOcc (hay needle : List Char) : Nat :=
  match needle with
  | [] => hay.length + 1
  | _ :: _ => countOccA needle hay 0

/-- Python `needle in hay` (case-sensitive substring test). -/
def strContains (hay needle : String) : Bool :=
  decide (0 < countOcc hay.data needle.data)

/-- SQLite LIKE pattern matching over character lists, structurally
recursive on the pattern so that concrete instances reduce: a percent
wildcard matches any suffix of the text (enumerated through List.tails),
an underscore matches exactly one character, and any other pattern
character matches one text character up to ASCII case folding, which is
the default LIKE behaviour of SQLite. -/
def likeB : List Char → List Char → Bool
  | [], t => t.isEmpty
  | pc :: ps, t =>
    if pc = '%' then t.tails.any (fun ts => likeB ps ts)
    else
      match t with
      | [] => false
      | c :: ts =>
          if pc = '_' then likeB ps ts
          else (lowerChar pc = lowerChar c) && likeB ps ts

/-- The condition `col LIKE ?` of search_content, whose bound parameter is
built by knowledge_graph.py as percent ++ query ++ percent: SQLite keeps
the percent and underscore wildcards inside the query active (there is no
ESCAPE clause), and compares ASCII characters case-insensitively. -/
def likeMatch (hay pat : String) : Bool :=
  likeB ('%' :: (pat.data ++ ['%'])) hay.data

/-- Case-insensitive substring test: the reading of query matching that
the specification text gives for search_content. Kept as a separate
definition to compare against the LIKE behaviour of the code; the two
agree exactly on queries free of LIKE metacharacters. -/
def substrCI (hay pat : String) : Bool :=
  strContains (lowerStr hay) (lowerStr pat)

/-- True when a string contains no LIKE metacharacter (no percent and no
underscore). -/
def noWild (pat : String) : Bool :=
  pat.data.all (fun c => !(c = '%') && !(c = '_'))

/-- Insert into a list sorted descending by `key`, keeping the inserted
element before any element of equal key: combined with `sortDescBy` this is
a stable descending sort, the behaviour of the Python call `list.sort(key=..., reverse=True)`. -/
def insertDescBy (key : α → β) (le : β → β → Bool) (x : α) : List α → List α
  | [] => [x]
  | y :: ys => if le (key y) (key x) then x :: y :: ys else y :: insertDescBy key le x ys

/-- Stable sort, descending by `key` under the total order `le`. -/
def sortDescBy (key : α → β) (le : β → β → Bool) : List α → List α
  | [] => []
  | x :: xs => insertDescBy key le x (sortDescBy key le xs)

/-- Association-list lookup (Python dict access). -/
def alookup (k : String) : List (String × α) → Option α
  | [] => none
  | (k2, v) :: rest => if k2 = k then some v else alookup k rest

/-- Association-list store (Python dict assignment `d[k] = v`). -/
def astore (k : String) (v : α) : List (String × α) → List (String × α)
  | [] => [(k, v)]
  | (k2, v2) :: rest => if k2 = k then (k2, v) :: rest else (k2, v2) :: astore k v rest

/-! ### Storage Layer: src/knowledge_graph.py -/

/-- Row of the `entities` table. -/
structure EntityRow where
  id : String
  etype : String
  name : String
  email : Option String
  source : String
  source_account : Option String
  metadata : Option String
  created_at : String
  updated_at : String
  deriving Repr, DecidableEq

/-- Row of the `content` table. -/
structure ContentRow where
  id : String
  ctype : String
  title : Option String
  body : Option String
  source : String
  source_account : Option String
  source_id : Option String
  url : Option String
  timestamp : Option String
  metadata : Option String
  created_at : String
  updated_at : String
  deriving Repr, DecidableEq

/-- Row of the `relationships` table (the AUTOINCREMENT id column is
immaterial to every operation and omitted). -/
structure RelRow where
  from_id : String
  from_type : String
  to_id : String
  to_type : String
  relation : String
  metadata : Option String
  deriving Repr, DecidableEq

/-- Row of the append-only `changelog` table. -/
structure ChangeRow where
  table_name : String
  record_id : String
  action : String
  old_value : Option String
  new_value : Option String
  deriving Repr, DecidableEq

/-- Row of the `sync_state` table, keyed by (source, account). -/
structure SyncRow where
  source : String
  account : String
  last_sync : String
  last_sync_token : Option String
  metadata : Option String
  deriving Repr, DecidableEq

/-- The knowledge-graph database state: the five tables, rows in rowid
(insertion) order. -/
structure KG where
  entities : List EntityRow
  content : List ContentRow
  relationships : List RelRow
  changelog : List ChangeRow
  sync_state : List SyncRow
  deriving Repr, DecidableEq

/-- The empty database produced by `_init_schema`. -/
def KG.empty : KG := ⟨[], [], [], [], []⟩

/-- `KnowledgeGraph._log_change`: INSERT INTO changelog. -/
def KG.log_change (kg : KG) (table_name record_id action : String)
    (old_value new_value : Option String := none) : KG :=
  { kg with changelog := kg.changelog ++ [⟨table_name, record_id, action, old_value, new_value⟩] }

/-- `KnowledgeGraph.upsert_entity`. `now` models CURRENT_TIMESTAMP; the
`metadata` argument is the already-serialized JSON value (the value of `json.dumps(metadata) if metadata else None` in the source). Returns (inserted?, state). -/
def KG.upsert_entity (kg : KG) (now : String) (entity_id entity_type name source : String)
    (source_account email metadata : Option String) : Bool × KG :=
  if kg.entities.any (fun r => r.id = entity_id) then
    let kg := { kg with entities := kg.entities.map (fun (r : EntityRow) =>
      if r.id = entity_id then
        { r with etype := entity_type, name := name, email := email, source := source,
                 source_account := source_account, metadata := metadata, updated_at := now }
      else r) }
    (false, kg.log_change "entities" entity_id "update")
  else
    let row : EntityRow :=
      ⟨entity_id, entity_type, name, email, source, source_account, metadata, now, now⟩
    let kg := { kg with entities := kg.entities ++ [row] }
    (true, kg.log_change "entities" entity_id "insert")

/-- `KnowledgeGraph.upsert_content`. `timestamp` is the ISO string the
source stores (`timestamp.isoformat() if timestamp else None`). -/
def KG.upsert_content (kg : KG) (now : String) (content_id content_type source : String)
    (source_account title body source_id url timestamp metadata : Option String) : Bool × KG :=
  if kg.content.any (fun r => r.id = content_id) then
    let kg := { kg with content := kg.content.map (fun (r : ContentRow) =>
      if r.id = content_id then
        { r with ctype := content_type, title := title, body := body, source := source,
                 source_account := source_account, source_id := source_id, url := url,
                 timestamp := timestamp, metadata := metadata, updated_at := now }
      else r) }
    (false, kg.log_change "content" content_id "update")
  else
    let row : ContentRow :=
      ⟨content_id, content_type, title, body, source, source_account, source_id, url,
       timestamp, metadata, now, now⟩
    let kg := { kg with content := kg.content ++ [row] }
    (true, kg.log_change "content" content_id "insert")

/-- The INSERT into `relationships` violates a constraint: the UNIQUE index
on (from_id, to_id, relation), or — since `_connection` runs
`PRAGMA foreign_keys = ON` — a FOREIGN KEY to `entities(id)` for either
endpoint. -/
def KG.relViolation (kg : KG) (from_id to_id relation : String) : Bool :=
  !(kg.entities.any (fun e => e.id = from_id)) ||
  !(kg.entities.any (fun e => e.id = to_id)) ||
  kg.relationships.any (fun r =>
    r.from_id = from_id && r.to_id = to_id && r.relation = relation)

/-- `KnowledgeGraph.add_relationship`: a bare INSERT in a
try/except-IntegrityError; any constraint violation is swallowed and
reported as False. No changelog write on either path. -/
def KG.add_relationship (kg : KG) (from_id from_type to_id to_type relation : String)
    (metadata : Option String := none) : Bool × KG :=
  if kg.relViolation from_id to_id relation then
    (false, kg)
  else
    (true, { kg with relationships :=
      kg.relationships ++ [⟨from_id, from_type, to_id, to_type, relation, metadata⟩] })

/-- `KnowledgeGraph.get_entity`. -/
def KG.get_entity (kg : KG) (entity_id : String) : Option EntityRow :=
  kg.entities.find? (fun r => r.id = entity_id)

/-- `KnowledgeGraph.get_content`. -/
def KG.get_content (kg : KG) (content_id : String) : Option ContentRow :=
  kg.content.find? (fun r => r.id = content_id)

/-- Lexicographic order on character lists by code point: the order SQLite
BINARY collation gives the stored ISO-timestamp TEXT values. -/
def strLeChars : List Char → List Char → Bool
  | [], _ => true
  | _ :: _, [] => false
  | a :: as, b :: bs =>
    if a.toNat < b.toNat then true
    else if b.toNat < a.toNat then false
    else strLeChars as bs

/-- SQLite TEXT comparison a <= b. -/
def sqliteLe (a b : String) : Bool := strLeChars a.data b.data

/-- SQLite ordering key for `ORDER BY timestamp DESC`: NULL sorts below
every TEXT value, hence last in descending order. `le a b` means a ≤ b. -/
def tsLe : Option String → Option String → Bool
  | none, _ => true
  | some _, none => false
  | some a, some b => sqliteLe a b

/-- One WHERE condition of `search_content`, for a provided argument.
`cond? arg f` is TRUE when the argument was not provided (condition absent)
or `f` holds of the row. -/
def condOpt (arg : Option α) (f : α → Bool) : Bool :=
  match arg with
  | none => true
  | some a => f a

/-- The WHERE clause of `KnowledgeGraph.search_content`: every provided
filter is ANDed. A NULL column makes its LIKE / comparison condition false,
as in SQL. The `query` condition is skipped for an empty string (Python
`if query:`), matching the SQL behaviour of LIKE with an empty pattern between the wildcards. -/
def ContentRow.matches (r : ContentRow) (query content_type source source_account since until_ : Option String) : Bool :=
  (match query with
   | none => true
   | some q =>
     if q = "" then true
     else (r.title.elim false (fun t => likeMatch t q)) ||
          (r.body.elim false (fun b => likeMatch b q))) &&
  condOpt content_type (fun ct => r.ctype = ct) &&
  condOpt source (fun s => r.source = s) &&
  condOpt source_account (fun a => r.source_account.elim false (fun x => x = a)) &&
  condOpt since (fun s => r.timestamp.elim false (fun t => sqliteLe s t)) &&
  condOpt until_ (fun u => r.timestamp.elim false (fun t => sqliteLe t u))

/-- `KnowledgeGraph.search_content`: filter, ORDER BY timestamp DESC
(NULLs last), LIMIT. -/
def KG.search_content (kg : KG) (query content_type source source_account since until_ : Option String)
    (limit : Nat) : List ContentRow :=
  ((sortDescBy (fun r : ContentRow => r.timestamp) tsLe
      (kg.content.filter
        (fun r => r.matches query content_type source source_account since until_))).take limit)

/-- `KnowledgeGraph.get_last_sync`. -/
def KG.get_last_sync (kg : KG) (source account : String) : Option SyncRow :=
  kg.sync_state.find? (fun r => r.source = source && r.account = account)

/-- `KnowledgeGraph.set_last_sync`: INSERT ... ON CONFLICT(source, account)
DO UPDATE. No changelog write. -/
def KG.set_last_sync (kg : KG) (source account last_sync : String)
    (sync_token metadata : Option String) : KG :=
  if kg.sync_state.any (fun r => r.source = source && r.account = account) then
    { kg with sync_state := kg.sync_state.map (fun r =>
      if r.source = source && r.account = account then
        ⟨source, account, last_sync, sync_token, metadata⟩
      else r) }
  else
    { kg with sync_state := kg.sync_state ++ [⟨source, account, last_sync, sync_token, metadata⟩] }

/-- `KnowledgeGraph.delete_content`: DELETE, then a changelog entry only
when a row was actually removed. -/
def KG.delete_content (kg : KG) (content_id : String) : Bool × KG :=
  if kg.content.any (fun r => r.id = content_id) then
    let kg := { kg with content := kg.content.filter (fun r => !(r.id = content_id)) }
    (true, kg.log_change "content" content_id "delete")
  else
    (false, kg)

/-- `KnowledgeGraph.delete_entity`: DELETE with ON DELETE CASCADE removing
every relationship touching the entity; changelog entry only on removal. -/
def KG.delete_entity (kg : KG) (entity_id : String) : Bool × KG :=
  if kg.entities.any (fun r => r.id = entity_id) then
    let kg := { kg with
      entities := kg.entities.filter (fun r => !(r.id = entity_id)),
      relationships := kg.relationships.filter
        (fun r => !(r.from_id = entity_id) && !(r.to_id = entity_id)) }
    (true, kg.log_change "entities" entity_id "delete")
  else
    (false, kg)


/-! ### Chunker: src/semantic/chunker.py -/

/-- Chunk metadata is an opaque dictionary passed through unchanged. -/
def MetaD := List (String × String)
deriving instance DecidableEq, Repr for MetaD

/-- `Chunk` dataclass. Offsets are Int because the running-start arithmetic
in the source is on Python ints. -/
structure Chunk where
  text : String
  start_char : Int
  end_char : Int
  chunk_index : Nat
  metadata : Option MetaD
  deriving Repr, DecidableEq

/-- `TextChunker` configuration. -/
structure TextChunker where
  chunk_size : Nat := 1000
  chunk_overlap : Nat := 200
  min_chunk_size : Nat := 100
  deriving Repr, DecidableEq

/-- The character class of the regex backslash-s (Python re whitespace). -/
def pyWs (c : Char) : Bool :=
  c = ' ' || c = '\t' || c = '\n' || c = '\x0d' || c = '\x0b' || c = '\x0c'

/-- Uppercase letter class [A-Z] of the sentence-boundary regex. -/
def upperAZ (c : Char) : Bool := 'A' ≤ c && c ≤ 'Z'

/-- Length of the separator matched by the sentence-boundary regex of
`_split_into_sentences` at the current position, given the previous
character (the lookbehind): either a whitespace run after a sentence
terminator and before an uppercase letter, or a possibly empty whitespace
run after a newline and before a non-whitespace character. -/
def sentenceBoundaryAt (prev : Option Char) (rest : List Char) : Option Nat :=
  let term := match prev with
    | some c => c = '.' || c = '!' || c = '?'
    | none => false
  let k := leadCount pyWs rest
  let v1 : Option Nat :=
    if term && decide (1 ≤ k) && (rest.drop k).head?.elim false upperAZ then some k else none
  match v1 with
  | some n => some n
  | none =>
    if prev = some '\n' && !(rest.drop k).isEmpty then some k else none

/-- The scanner of `re.split` for the sentence-boundary pattern: cut the
text at each leftmost match, dropping the matched separator; after an
empty-width match the scan advances one character, as the re module does. -/
def reSplitGo (prev : Option Char) (accRev : List Char) (rest : List Char) : List (List Char) :=
  match rest with
  | [] => [accRev.reverse]
  | c :: rest2 =>
    match sentenceBoundaryAt prev rest with
    | some 0 => accRev.reverse :: reSplitGo (some c) [c] rest2
    | some (Nat.succ n) =>
      accRev.reverse ::
        reSplitGo (some ((rest2.take n).getLastD c)) [] (rest2.drop n)
    | none => reSplitGo (some c) (c :: accRev) rest2
  termination_by rest.length
  decreasing_by
    all_goals simp [List.length_drop]
    all_goals omega

/-- Split on the sentence-separator regex, as parts of the original text. -/
def reSplitParts (text : String) : List String :=
  (reSplitGo none [] text.data).map String.mk

/-- Characters skipped by the position-tracking loop of
`_split_into_sentences` (the literal string " \n\t" in the source). -/
def skipWs3 (c : Char) : Bool := c = ' ' || c = '\n' || c = '\t'

/-- Position bookkeeping of `_split_into_sentences`: pair each kept part
with its start position, advancing past the part and then over whitespace
while before the end of the text. -/
def sentencePositions (textLen : Nat) (cs : List Char) : List String → Nat → List (Nat × String)
  | [], _ => []
  | part :: rest, pos =>
    let s := pyStrip part
    let entry := if s ≠ "" then [(pos, s)] else []
    let pos2 := pos + part.length
    let pos3 := if pos2 < textLen then pos2 + leadCount skipWs3 (cs.drop pos2) else pos2
    entry ++ sentencePositions textLen cs rest pos3

/-- `TextChunker._split_into_sentences`. -/
def TextChunker.split_into_sentences (text : String) : List (Nat × String) :=
  sentencePositions text.length text.data (reSplitParts text) 0

/-- Iteration of `_get_overlap` over the reversed sentence list: stop at the
first sentence that would push the accumulated length past the target. -/
def getOverlapGo (target : Nat) : List String → List String → Nat → List String
  | [], acc, _ => acc
  | s :: restRev, acc, len =>
    if target < len + s.length then acc
    else getOverlapGo target restRev (s :: acc) (len + s.length + 1)

/-- `TextChunker._get_overlap`. -/
def TextChunker.get_overlap (sentences : List String) (target_length : Nat) : String :=
  if sentences.isEmpty then ""
  else " ".intercalate (getOverlapGo target_length sentences.reverse [] 0)

/-- The main accumulation loop of `TextChunker.chunk` (source lines 69 to
94): greedily gather sentences, emitting a chunk and seeding the next one
with the overlap whenever the next sentence would exceed `chunk_size`. -/
def chunkLoop (c : TextChunker) (metadata : Option MetaD) :
    List (Nat × String) → List String → Int → Nat → Nat → List Chunk → List Chunk × List String × Int
  | [], cur, curStart, _, _, chunks => (chunks, cur, curStart)
  | (sstart, s) :: rest, cur, curStart, curLen, idx, chunks =>
    if c.chunk_size < curLen + s.length && !cur.isEmpty then
      let chunkText := " ".intercalate cur
      let chunks := chunks ++ [⟨pyStrip chunkText, curStart, curStart + chunkText.length, idx, metadata⟩]
      let overlap := TextChunker.get_overlap cur c.chunk_overlap
      let cur2 := if overlap ≠ "" then [overlap] else []
      let curLen2 := if overlap ≠ "" then overlap.length else 0
      let curStart2 : Int := (sstart : Int) - (curLen2 : Int)
      chunkLoop c metadata rest (cur2 ++ [s]) curStart2 (curLen2 + s.length + 1) (idx + 1) chunks
    else
      chunkLoop c metadata rest (cur ++ [s]) curStart (curLen + s.length + 1) idx chunks

/-- The trailing-chunk handling of `TextChunker.chunk` (source lines 96 to
119): emit the leftover if long enough, otherwise merge it into the
previous chunk. -/
def chunkFinish (c : TextChunker) (metadata : Option MetaD)
    (chunks : List Chunk) (cur : List String) (curStart : Int) : List Chunk :=
  if cur.isEmpty then chunks
  else
    let chunkText := " ".intercalate cur
    if c.min_chunk_size ≤ chunkText.length then
      chunks ++ [⟨pyStrip chunkText, curStart, curStart + chunkText.length,
                  chunks.length, metadata⟩]
    else
      match chunks.getLast? with
      | none => chunks
      | some prev =>
        let merged := prev.text ++ " " ++ pyStrip chunkText
        chunks.dropLast ++ [⟨merged, prev.start_char, prev.start_char + merged.length,
                             prev.chunk_index, metadata⟩]

/-- `TextChunker.chunk`. Text that is empty or shorter than
`min_chunk_size` short-circuits before any sentence splitting. -/
def TextChunker.chunk (c : TextChunker) (text : String) (metadata : Option MetaD := none) :
    List Chunk :=
  if text = "" || text.length < c.min_chunk_size then
    if text ≠ "" then [⟨pyStrip text, 0, (text.length : Int), 0, metadata⟩] else []
  else
    let sentences := TextChunker.split_into_sentences text
    let (chunks, cur, curStart) := chunkLoop c metadata sentences [] 0 0 0 []
    chunkFinish c metadata chunks cur curStart



/-! ### Embedder: src/semantic/embedder.py

The OpenAI provider is a parameter `provider`; the sha256-prefix cache key
is a parameter `hash`. Disk state tracks the per-key entry files the code
writes and the cache_index.json file the code reads. -/

/-- On-disk cache state: one JSON file per key under cache_dir, plus the
optional cache_index.json (which no code path ever writes). -/
structure EmbDisk where
  files : List (String × List Rat)
  index_file : Option (List String)
  deriving Repr, DecidableEq

/-- In-memory state of an `Embedder` instance: the `_cache` dict. -/
structure EmbState where
  cache : List (String × List Rat)
  deriving Repr, DecidableEq

/-- `Embedder._load_cache`: opens cache_index.json if it exists and only
logs the number of entries; nothing is stored into `_cache` and the per-key
entry files are not read (`_load_cache_entry` has no caller). -/
def load_cache (_disk : EmbDisk) : List (String × List Rat) := []

/-- `Embedder.__init__` over an existing cache directory: the in-memory
cache starts from `_load_cache`. -/
def Embedder.new (disk : EmbDisk) : EmbState := ⟨load_cache disk⟩

/-- `Embedder._save_cache_entry`: write the embedding to the per-key file.
cache_index.json is not touched. -/
def save_cache_entry (disk : EmbDisk) (key : String) (e : List Rat) : EmbDisk :=
  { disk with files := astore key e disk.files }

/-- `Embedder._truncate_text` with the default 8000-token budget at about
4 characters per token. -/
def truncate_text (text : String) (max_tokens : Nat := 8000) : String :=
  if max_tokens * 4 < text.length then ⟨text.data.take (max_tokens * 4)⟩ else text

/-- `Embedder._embed_batch` after retries succeed: each batch slice is
truncated and submitted to the provider, results in input order. Retry
exhaustion propagates, modelled by the caller choosing the branch. -/
def embed_batch_internal (provider : String → List Rat) (texts : List String) : List (List Rat) :=
  texts.map (fun t => provider (truncate_text t))

/-- `Embedder.embed`: check `_cache` first; on a hit, return without any
provider call; on a miss, call the provider, store in `_cache` and persist
the entry file. The final Bool reports whether the network was used. -/
def Embedder.embed (provider : String → List Rat) (hash : String → String)
    (st : EmbState) (disk : EmbDisk) (text : String) :
    List Rat × EmbState × EmbDisk × Bool :=
  let key := hash text
  match alookup key st.cache with
  | some e => (e, st, disk, false)
  | none =>
    let e := (embed_batch_internal provider [text]).headD []
    (e, ⟨astore key e st.cache⟩, save_cache_entry disk key e, true)

/-- `Embedder.embed_batch`: cached texts are answered from `_cache`; the
misses are embedded in one provider submission and written back; results
are reassembled in input order. The Bool reports whether any network call
happened. -/
def Embedder.embed_batch (provider : String → List Rat) (hash : String → String)
    (st : EmbState) (disk : EmbDisk) (texts : List String) :
    List (List Rat) × EmbState × EmbDisk × Bool :=
  let to_embed := texts.filter (fun t => (alookup (hash t) st.cache).isNone)
  if to_embed.isEmpty then
    (texts.map (fun t => (alookup (hash t) st.cache).getD []), st, disk, false)
  else
    let new_embeddings := embed_batch_internal provider to_embed
    let pairs := to_embed.zip new_embeddings
    let st2 : EmbState := ⟨pairs.foldl (fun c p => astore (hash p.1) p.2 c) st.cache⟩
    let disk2 := pairs.foldl (fun d p => save_cache_entry d (hash p.1) p.2) disk
    (texts.map (fun t => (alookup (hash t) st2.cache).getD []), st2, disk2, true)



/-! ### Vector store and Query Engine: src/semantic/vector_store.py,
src/query/engine.py -/

/-- One nearest-neighbour hit as returned (flattened) by
`VectorStore.search`: a chunk vector id, its document text and its cosine
distance. -/
structure VSHit where
  id : String
  document : String
  distance : Rat
  deriving Repr, DecidableEq

/-- The vector store at query time: the collection names
(`list_collections`) and the nearest-neighbour answer per collection
(ChromaDB is the external engine; a missing or erroring collection yields
the empty answer, which `VectorStore.search` also returns on error). -/
structure VectorStore where
  collections : List String
  query : String → List Rat → Nat → List VSHit

/-- One entry of the result list built by `QueryEngine.search`: keyword
entries are a content row plus score and search_type keys; semantic entries
carry the chunk id, collection and document instead. -/
structure SearchHit where
  id : String
  score : Rat
  search_type : String
  row : Option ContentRow := none
  chunk_id : Option String := none
  coll : Option String := none
  text : Option String := none
  deriving Repr, DecidableEq

/-- Python `doc_id.rsplit(":chunk:", 1)[0]`: drop everything from the last
occurrence of the separator on. -/
def rsplitBefore (s sep : String) : String :=
  match ((List.range (s.data.length + 1)).filter
      (fun i => sep.data.isPrefixOf (s.data.drop i))).getLast? with
  | none => s
  | some i => ⟨s.data.take i⟩

/-- `QueryEngine._semantic_search` after the query embedding is in hand:
search every relevant collection (`content_types or list_collections()`,
with Python truthiness on the list), map chunk ids back to content ids,
score by similarity 1 - distance. -/
def semantic_search (vs : VectorStore) (query_embedding : List Rat)
    (content_types : Option (List String)) (top_k : Nat) : List SearchHit :=
  let colls := match content_types with
    | some (c :: cs) => c :: cs
    | _ => vs.collections
  colls.flatMap (fun coll =>
    (vs.query coll query_embedding top_k).map (fun h =>
      { id := if strContains h.id ":chunk:" then rsplitBefore h.id ":chunk:" else h.id,
        score := 1 - h.distance,
        search_type := "semantic",
        chunk_id := some h.id,
        coll := some coll,
        text := some h.document }))

/-- Python min over the rationals, written so that the kernel can evaluate
it on concrete scores. -/
def pymin (a b : Rat) : Rat := if a ≤ b then a else b

/-- The keyword score of `QueryEngine._keyword_search` for a row:
min((title_matches * 3 + body_matches) * 0.1, 0.8), counting
non-overlapping case-insensitive occurrences of the query. -/
def keywordScore (query : String) (r : ContentRow) : Rat :=
  let ql := lowerStr query
  let title_matches := countOcc (lowerStr (r.title.getD "")).data ql.data
  let body_matches := countOcc (lowerStr (r.body.getD "")).data ql.data
  pymin (((title_matches * 3 + body_matches : Nat) : Rat) * (1/10)) (8/10)

/-- `QueryEngine._keyword_search`: one `search_content` call per provided
content type (or a single unfiltered call), then the source filter applied
in Python, then scoring and tagging. -/
def keyword_search (kg : KG) (query : String)
    (content_types sources : Option (List String)) (since until_ : Option String)
    (limit : Nat) : List SearchHit :=
  let rows := match content_types with
    | some (c :: cs) =>
      (c :: cs).flatMap (fun ct =>
        kg.search_content (some query) (some ct) none none since until_ limit)
    | _ => kg.search_content (some query) none none none since until_ limit
  let rows := match sources with
    | some (s :: ss) => rows.filter (fun (r : ContentRow) => (s :: ss).contains r.source)
    | _ => rows
  rows.map (fun (r : ContentRow) =>
    { id := r.id, score := keywordScore query r, search_type := "keyword", row := some r })

/-- The merge loop of `QueryEngine.search`: append the hits whose content
id has not been seen, first occurrence wins. -/
def dedupInto (results : List SearchHit) (seen : List String) :
    List SearchHit → List SearchHit × List String
  | [] => (results, seen)
  | r :: rs =>
    if seen.contains r.id then dedupInto results seen rs
    else dedupInto (results ++ [r]) (seen ++ [r.id]) rs

/-- `QueryEngine.search`. `embedq` is the outcome of
`self.embedder.embed(query)` (an error makes the whole semantic branch
raise, which `search` catches and logs); `kgExc` injects a storage-layer
exception into the keyword branch, likewise caught. Each branch asks for
top_k * 2 candidates; the merged list is sorted by score descending
(stable, as list.sort) and truncated to top_k. -/
def QueryEngine.search (vs : VectorStore) (kg : KG) (embedq : Except Unit (List Rat))
    (kgExc : Bool) (query : String) (content_types sources : Option (List String))
    (since until_ : Option String) (top_k : Nat)
    (use_semantic : Bool := true) (use_keyword : Bool := true) : List SearchHit :=
  let s1 :=
    if use_semantic then
      match embedq with
      | .ok e => dedupInto [] [] (semantic_search vs e content_types (top_k * 2))
      | .error _ => ([], [])
    else ([], [])
  let s2 :=
    if use_keyword then
      if kgExc then s1
      else dedupInto s1.1 s1.2
        (keyword_search kg query content_types sources since until_ (top_k * 2))
    else s1
  (sortDescBy (fun h : SearchHit => h.score) (fun a b => decide (a ≤ b)) s2.1).take top_k

/-! ### Gmail indexer: src/indexers/gmail_indexer.py

The Gmail API client is an external collaborator; its responses are data
parameters. A `ParsedEmail` is the output of `GmailClient.parse_message`,
with the From/To/CC headers already taken through
`_parse_email_addresses` (a regex helper over the raw header text) into
(email, name) pairs, and the metadata dict serialization abstracted into
`meta_json`. -/

structure ParsedEmail where
  id : String
  thread_id : String
  subject : Option String
  body : Option String
  timestamp : Option String
  from_people : List (String × Option String)
  to_people : List (String × Option String)
  cc_people : List (String × Option String)
  meta_json : String
  deriving Repr

/-- Outcome of `client.get_message` for one stub: the call raised, returned
a falsy message, or produced a parsed message. -/
inductive Fetch where
  | raised
  | missing
  | msg (m : ParsedEmail)
  deriving Repr

/-- One Gmail history record: messagesAdded fetch outcomes and
messagesDeleted ids. -/
structure HistoryRecord where
  added : List Fetch
  deleted : List String
  deriving Repr

/-- The Gmail client data for one run: successive `list_messages` pages
(raise / response without a messages key / messages), the profile history
id, and the `list_history` response for delta runs. -/
structure GmailClient where
  pages : List (Except String (Option (List Fetch)))
  profile_history_id : Option String
  history : Except String (List HistoryRecord)
  history_new_id : Option String

/-- Run statistics: the Python dict of counters. -/
def Stats := List (String × Nat)
deriving instance DecidableEq, Repr for Stats

/-- The keys of a stats dict. -/
def Stats.keys (s : Stats) : List String := s.map (fun p => p.1)

/-- Python `stats[k] += 1`: KeyError (None) when the key is absent. -/
def Stats.incr (s : Stats) (k : String) : Option Stats :=
  match alookup k s with
  | none => none
  | some v => some (astore k (v + 1) s)

/-- `stats[k] += 1` at a call site where the key is always present (both
stats dict literals in the source initialize it). -/
def Stats.bump (s : Stats) (k : String) : Stats := (s.incr k).getD s

/-- The stats dict literal of `index_all`. -/
def full_init : Stats :=
  [("messages_processed", 0), ("messages_indexed", 0), ("people_extracted", 0), ("errors", 0)]

/-- The stats dict literal of `index_delta`. -/
def delta_init : Stats :=
  [("messages_added", 0), ("messages_deleted", 0), ("errors", 0)]

/-- Python `name or email` over the parsed name. -/
def nameOr (n : Option String) (email : String) : String :=
  match n with
  | some s => if s = "" then email else s
  | none => email

/-- A person extracted from a message header, with its relation label. -/
structure PersonRec where
  email : String
  name : Option String
  relation : String
  deriving Repr

/-- `GmailIndexer._extract_people`: From, To and CC people with relations
sender, recipient and cc, e-mail addresses lowercased. -/
def extract_people (m : ParsedEmail) : List PersonRec :=
  (m.from_people.map (fun p => ⟨lowerStr p.1, p.2, "sender"⟩)) ++
  (m.to_people.map (fun p => ⟨lowerStr p.1, p.2, "recipient"⟩)) ++
  (m.cc_people.map (fun p => ⟨lowerStr p.1, p.2, "cc"⟩))

/-- The people loop of `GmailIndexer._index_message`: upsert each person
entity, count a new one under people_extracted (a KeyError there aborts
the message, Bool false), then add the message-to-person relationship. -/
def index_people (now account content_id : String) :
    List PersonRec → KG → Stats → KG × Stats × Bool
  | [], kg, stats => (kg, stats, true)
  | p :: ps, kg, stats =>
    let person_id := "person:" ++ p.email
    let up := kg.upsert_entity now person_id "person" (nameOr p.name p.email)
      "gmail" (some account) (some p.email) none
    if up.1 then
      match stats.incr "people_extracted" with
      | none => (up.2, stats, false)
      | some stats2 =>
        index_people now account content_id ps
          (up.2.add_relationship content_id "email" person_id "person" p.relation).2 stats2
    else
      index_people now account content_id ps
        (up.2.add_relationship content_id "email" person_id "person" p.relation).2 stats

/-- `GmailIndexer._index_message`. The Bool is false when a stats update
raised KeyError (possible only under the delta stats dict); knowledge-graph
writes made before the raise persist, since every storage call is its own
transaction. -/
def index_message (now account : String) (m : ParsedEmail) (kg : KG) (stats : Stats) :
    KG × Stats × Bool :=
  let content_id := "gmail:" ++ account ++ ":" ++ m.id
  let r1 := index_people now account content_id (extract_people m) kg stats
  if !r1.2.2 then (r1.1, r1.2.1, false)
  else
    let body_preview := match m.body with
      | some b => if b = "" then "" else String.mk (b.data.take 5000)
      | none => ""
    let up := r1.1.upsert_content now content_id "email" "gmail" (some account)
      m.subject (some body_preview) (some m.id) none m.timestamp (some m.meta_json)
    if up.1 then
      match r1.2.1.incr "messages_indexed" with
      | none => (up.2, r1.2.1, false)
      | some stats2 => (up.2, stats2, true)
    else (up.2, r1.2.1, true)

/-- Per-message handling inside the page loop of `index_all`: a raising
fetch or a raising `_index_message` adds one error; a falsy message is
skipped; success bumps messages_processed. -/
def process_page (now account : String) : List Fetch → KG → Stats → KG × Stats
  | [], kg, stats => (kg, stats)
  | f :: fs, kg, stats =>
    match f with
    | .raised => process_page now account fs kg (stats.bump "errors")
    | .missing => process_page now account fs kg stats
    | .msg m =>
      let r := index_message now account m kg stats
      if r.2.2 then process_page now account fs r.1 (r.2.1.bump "messages_processed")
      else process_page now account fs r.1 (r.2.1.bump "errors")

/-- The page loop of `index_all`: stop when the processed count reaches
max_messages, a listing call raises (one error, break), the response has no
messages key, or the pages run out (no nextPageToken). -/
def index_all_go (now account : String) (max_messages : Nat) :
    List (Except String (Option (List Fetch))) → KG → Stats → KG × Stats
  | [], kg, stats => (kg, stats)
  | page :: rest, kg, stats =>
    if (alookup "messages_processed" stats).getD 0 < max_messages then
      match page with
      | .error _ => (kg, stats.bump "errors")
      | .ok none => (kg, stats)
      | .ok (some msgs) =>
        let r := process_page now account msgs kg stats
        index_all_go now account max_messages rest r.1 r.2
    else (kg, stats)

/-- Abstraction of `json.dumps({"type": kind, "stats": stats})` stored into
the sync-state metadata. -/
def syncMeta (kind : String) (stats : Stats) : Option String :=
  some (kind ++ ";" ++ String.intercalate "," (stats.map (fun p => p.1 ++ "=" ++ toString p.2)))

/-- `GmailIndexer.index_all`: validate the account, run the page loop, then
persist the sync state with the profile history id and full-run stats. -/
def index_all (accounts : List String) (client : GmailClient) (kg : KG)
    (now account : String) (max_messages : Nat := 10000) : Except String (KG × Stats) :=
  if !(accounts.contains account) then .error ("Unknown account: " ++ account)
  else
    let r := index_all_go now account max_messages client.pages kg full_init
    .ok (r.1.set_last_sync "gmail" account now client.profile_history_id
      (syncMeta "full" r.2), r.2)

/-- messagesAdded handling of `index_delta`: fetch and index each added
message, bumping messages_added on success and errors on a per-message
raise (including the KeyError `_index_message` hits under the delta stats
dict). -/
def delta_added (now account : String) : List Fetch → KG → Stats → KG × Stats
  | [], kg, stats => (kg, stats)
  | f :: fs, kg, stats =>
    match f with
    | .raised => delta_added now account fs kg (stats.bump "errors")
    | .missing => delta_added now account fs kg stats
    | .msg m =>
      let r := index_message now account m kg stats
      if r.2.2 then delta_added now account fs r.1 (r.2.1.bump "messages_added")
      else delta_added now account fs r.1 (r.2.1.bump "errors")

/-- messagesDeleted handling of `index_delta`. -/
def delta_deleted (account : String) : List String → KG → Stats → KG × Stats
  | [], kg, stats => (kg, stats)
  | mid :: ms, kg, stats =>
    let d := kg.delete_content ("gmail:" ++ account ++ ":" ++ mid)
    if d.1 then delta_deleted account ms d.2 (stats.bump "messages_deleted")
    else delta_deleted account ms d.2 stats

/-- The history-record loop of `index_delta`. -/
def delta_history (now account : String) : List HistoryRecord → KG → Stats → KG × Stats
  | [], kg, stats => (kg, stats)
  | h :: hs, kg, stats =>
    let r := delta_added now account h.added kg stats
    let r2 := delta_deleted account h.deleted r.1 r.2
    delta_history now account hs r2.1 r2.2

/-- `GmailIndexer.index_delta`: validate the account; with no prior sync
state or a missing (falsy) token, run `index_all` instead. Otherwise
process the history; a raising `list_history` counts one error and either
falls back to a full index (when the message mentions historyId) or
returns the delta stats; on success persist the new cursor. -/
def index_delta (accounts : List String) (client : GmailClient) (kg : KG)
    (now account : String) : Except String (KG × Stats) :=
  if !(accounts.contains account) then .error ("Unknown account: " ++ account)
  else
    let stats := delta_init
    match (kg.get_last_sync "gmail" account).bind (fun s => s.last_sync_token) with
    | none => index_all accounts client kg now account
    | some tok =>
      if tok = "" then index_all accounts client kg now account
      else
        match client.history with
        | .error e =>
          let stats := stats.bump "errors"
          if strContains e "historyId" then index_all accounts client kg now account
          else .ok (kg, stats)
        | .ok records =>
          let r := delta_history now account records kg stats
          .ok (r.1.set_last_sync "gmail" account now
            (some (client.history_new_id.getD tok)) (syncMeta "delta" r.2), r.2)



/-! ### Example instances used by closed theorems -/

/-- A fixed timestamp for concrete scenarios. -/
def ts0 : String := "2024-01-01T00:00:00"

/-- A knowledge graph with two person entities, as the duplicate-edge test
of the repository builds. -/
def kgTwoPeople : KG :=
  ((KG.empty.upsert_entity ts0 "person:a" "person" "Person A" "gmail" none none none).2.upsert_entity
    ts0 "person:b" "person" "Person B" "gmail" none none none).2

/-- A content row used by concrete query-engine scenarios. -/
def rowQuarterly : ContentRow :=
  ⟨"gmail:acct:1", "email", some "Quarterly Report", some "the quarterly numbers, quarterly",
   "gmail", some "acct", some "1", none, some "2024-02-01T00:00:00", none, ts0, ts0⟩

/-- A second content row, from another source and an old timestamp. -/
def rowOldDrive : ContentRow :=
  ⟨"drive:b:2", "file", some "Notes", some "report notes", "drive", none, some "2",
   none, some "2020-01-01T00:00:00", none, ts0, ts0⟩

/-- A third content row that only the keyword branch can find (no vectors
for it in the store). -/
def rowWeekly : ContentRow :=
  ⟨"gmail:acct:3", "email", some "Weekly report", some "see attachments", "gmail",
   some "acct", some "3", none, some "2024-03-01T00:00:00", none, ts0, ts0⟩

/-- Concrete store for query scenarios. -/
def kgDocs : KG := { KG.empty with content := [rowQuarterly, rowOldDrive, rowWeekly] }

/-- A vector store whose email collection returns one chunk of the
quarterly e-mail and whose file collection returns one chunk of the drive
document. -/
def vsDocs : VectorStore :=
  { collections := ["email", "file"],
    query := fun coll _ _ =>
      if coll = "email" then [⟨"gmail:acct:1:chunk:0", "quarterly chunk", 1/10⟩]
      else if coll = "file" then [⟨"drive:b:2:chunk:0", "notes chunk", 3/10⟩]
      else [] }

/-- A vector store for the fusion counterexample: a strong hit for x and a
weaker hit for y in one collection. -/
def vsXY : VectorStore :=
  { collections := ["email"],
    query := fun coll _ _ =>
      if coll = "email" then [⟨"x:chunk:0", "dx", 1/10⟩, ⟨"y:chunk:0", "dy", 4/10⟩]
      else [] }

/-- Store for the fusion counterexample: the content row behind y matches
the keyword query. -/
def kgY : KG :=
  { KG.empty with content :=
      [⟨"y", "email", some "needle", some "needle body", "gmail", none, none, none,
        some "2024-02-01T00:00:00", none, ts0, ts0⟩] }

/-- A default search hit (used only to pick members out of concrete result
lists in closed statements). -/
def hit0 : SearchHit := { id := "", score := 0, search_type := "" }

/-- The keyword hit of the concrete hybrid search over `kgDocs`. -/
def kwHitW : SearchHit :=
  ((QueryEngine.search vsDocs kgDocs (Except.ok [1]) false "report" none none none none 10
      true true).filter (fun h => h.search_type = "keyword")).headD hit0

/-- A Gmail client with one empty page and a profile history id. -/
def clientW : GmailClient :=
  { pages := [Except.ok (some [])], profile_history_id := some "h9",
    history := Except.ok [], history_new_id := none }

/-- A content row whose title axb is LIKE-matched by the query a_b through
the underscore wildcard, although the query is not a substring of the
title. -/
def rowAxb : ContentRow :=
  ⟨"w:1", "note", some "axb", none, "web", none, none, none,
   some "2024-01-01T00:00:00", none, ts0, ts0⟩

/-- A store holding only that row. -/
def kgAxb : KG := { KG.empty with content := [rowAxb] }


/-- The specification of search_content checked by claim C7: at most limit
rows, ordered by timestamp descending, soundness of every returned row
against the provided filters (LIKE match of the query on title or body,
conjunctive filters, inclusive time bounds), and completeness whenever the
matching rows fit within the limit. -/
def SearchContentSpec (kg : KG) (q : String) (ct src acct since until_ : Option String)
    (limit : Nat) : Prop :=
  (kg.search_content (some q) ct src acct since until_ limit).length ≤ limit ∧
  (kg.search_content (some q) ct src acct since until_ limit).Pairwise
    (fun a b => tsLe b.timestamp a.timestamp = true) ∧
  (∀ r ∈ kg.search_content (some q) ct src acct since until_ limit,
    r ∈ kg.content ∧
    ((∃ t, r.title = some t ∧ likeMatch t q = true) ∨
     (∃ b, r.body = some b ∧ likeMatch b q = true)) ∧
    (∀ c ∈ ct, r.ctype = c) ∧ (∀ s ∈ src, r.source = s) ∧
    (∀ a ∈ acct, r.source_account = some a) ∧
    (∀ s ∈ since, ∃ t, r.timestamp = some t ∧ sqliteLe s t = true) ∧
    (∀ u ∈ until_, ∃ t, r.timestamp = some t ∧ sqliteLe t u = true)) ∧
  ((kg.content.filter
      (fun r => r.matches (some q) ct src acct since until_)).length ≤ limit →
    ∀ r ∈ kg.content,
      (((∃ t, r.title = some t ∧ likeMatch t q = true) ∨
        (∃ b, r.body = some b ∧ likeMatch b q = true)) ∧
       (∀ c ∈ ct, r.ctype = c) ∧ (∀ s ∈ src, r.source = s) ∧
       (∀ a ∈ acct, r.source_account = some a) ∧
       (∀ s ∈ since, ∃ t, r.timestamp = some t ∧ sqliteLe s t = true) ∧
       (∀ u ∈ until_, ∃ t, r.timestamp = some t ∧ sqliteLe t u = true)) →
      r ∈ kg.search_content (some q) ct src acct since until_ limit)

/-- The deduplicated merged candidate list `search` builds before sorting
and truncating, when both branches run and neither raises: semantic
candidates first, then keyword candidates whose content id was not already
seen. -/
def mergedCandidates (vs : VectorStore) (kg : KG) (e : List Rat) (q : String)
    (cts ss : Option (List String)) (si u : Option String) (k : Nat) : List SearchHit :=
  (dedupInto (dedupInto [] [] (semantic_search vs e cts (k * 2))).1
    (dedupInto [] [] (semantic_search vs e cts (k * 2))).2
    (keyword_search kg q cts ss si u (k * 2))).1

/-- The fusion behaviour of `QueryEngine.search` checked by claim C1: the
merged deduplicated list keeps exactly one entry per duplicated content id
and it is the semantic one; the output is that list sorted descending by
score and truncated to top_k, hence the id appears at most once, and
exactly once whenever nothing is truncated; a branch that raises degrades
the search to the other branch alone. -/
def FusionSpec (vs : VectorStore) (kg : KG) (e : List Rat) (q : String)
    (cts ss : Option (List String)) (si u : Option String) (k : Nat) (cid : String) : Prop :=
  (∃ hsem, (mergedCandidates vs kg e q cts ss si u k).filter (fun x => x.id = cid) = [hsem] ∧
     hsem ∈ semantic_search vs e cts (k * 2) ∧ hsem.search_type = "semantic") ∧
  QueryEngine.search vs kg (Except.ok e) false q cts ss si u k true true
    = (sortDescBy (fun h : SearchHit => h.score) (fun a b => decide (a ≤ b))
        (mergedCandidates vs kg e q cts ss si u k)).take k ∧
  (QueryEngine.search vs kg (Except.ok e) false q cts ss si u k true true).Pairwise
    (fun a b => b.score ≤ a.score) ∧
  ((QueryEngine.search vs kg (Except.ok e) false q cts ss si u k true true).filter
    (fun x => x.id = cid)).length ≤ 1 ∧
  ((mergedCandidates vs kg e q cts ss si u k).length ≤ k →
    ((QueryEngine.search vs kg (Except.ok e) false q cts ss si u k true true).filter
      (fun x => x.id = cid)).length = 1) ∧
  (∀ err : Unit, QueryEngine.search vs kg (Except.error err) false q cts ss si u k true true
    = QueryEngine.search vs kg (Except.ok e) false q cts ss si u k false true) ∧
  QueryEngine.search vs kg (Except.ok e) true q cts ss si u k true true
    = QueryEngine.search vs kg (Except.ok e) false q cts ss si u k true false

/-- The semantic hit of the concrete hybrid search over `kgDocs`. -/
def semHitW : SearchHit := (semantic_search vsDocs [1] none 20).headD hit0

/-- The keyword hit for the duplicated content id in the concrete search. -/
def kwHitDup : SearchHit :=
  ((keyword_search kgDocs "report" none none none none 20).filter
    (fun h => h.id = "gmail:acct:1")).headD hit0

/-! Concrete evaluations below unfold the rational arithmetic of the score
expressions, which Batteries seals; restore default reducibility for them
inside this development. -/
section RatReducible

attribute [local semireducible] Rat.mul Rat.sub Rat.add Rat.inv

/-! ### Lemmas on the stable descending sort -/

theorem insertDescBy_perm (key : α → β) (le : β → β → Bool) (x : α) (l : List α) :
    (insertDescBy key le x l).Perm (x :: l) := by
  induction l with
  | nil => simp [insertDescBy]
  | cons y ys ih =>
    by_cases h : le (key y) (key x) = true
    · simp [insertDescBy, h]
    · have he : insertDescBy key le x (y :: ys)
          = if le (key y) (key x) = true then x :: y :: ys
            else y :: insertDescBy key le x ys := rfl
      rw [he, if_neg h]
      exact ((ih.cons y).trans (List.Perm.swap x y ys))

theorem sortDescBy_perm (key : α → β) (le : β → β → Bool) (l : List α) :
    (sortDescBy key le l).Perm l := by
  induction l with
  | nil => simp [sortDescBy]
  | cons x xs ih =>
    exact (insertDescBy_perm key le x (sortDescBy key le xs)).trans (ih.cons x)

theorem pairwise_insertDescBy (key : α → β) (le : β → β → Bool)
    (htot : ∀ a b : β, le a b = true ∨ le b a = true)
    (htrans : ∀ a b c : β, le a b = true → le b c = true → le a c = true)
    (x : α) (l : List α)
    (hl : l.Pairwise (fun a b => le (key b) (key a) = true)) :
    (insertDescBy key le x l).Pairwise (fun a b => le (key b) (key a) = true) := by
  induction l with
  | nil => simp [insertDescBy]
  | cons y ys ih =>
    rcases List.pairwise_cons.mp hl with ⟨hy, hys⟩
    by_cases h : le (key y) (key x) = true
    · simp only [insertDescBy, if_pos h]
      refine List.pairwise_cons.mpr ⟨?_, hl⟩
      intro z hz
      rcases List.mem_cons.mp hz with rfl | hz
      · exact h
      · exact htrans _ _ _ (hy z hz) h
    · simp only [insertDescBy, if_neg h]
      refine List.pairwise_cons.mpr ⟨?_, ih hys⟩
      intro z hz
      have hz2 := (insertDescBy_perm key le x ys).mem_iff.mp hz
      rcases List.mem_cons.mp hz2 with rfl | hz2
      · rcases htot (key y) (key z) with hh | hh
        · exact absurd hh h
        · exact hh
      · exact hy z hz2

theorem pairwise_sortDescBy (key : α → β) (le : β → β → Bool)
    (htot : ∀ a b : β, le a b = true ∨ le b a = true)
    (htrans : ∀ a b c : β, le a b = true → le b c = true → le a c = true)
    (l : List α) :
    (sortDescBy key le l).Pairwise (fun a b => le (key b) (key a) = true) := by
  induction l with
  | nil => simp [sortDescBy]
  | cons x xs ih => exact pairwise_insertDescBy key le htot htrans x _ ih

theorem strLeChars_total (as : List Char) :
    ∀ bs, strLeChars as bs = true ∨ strLeChars bs as = true := by
  induction as with
  | nil => intro bs; left; rfl
  | cons a as ih =>
    intro bs
    cases bs with
    | nil => right; rfl
    | cons b bs =>
      rcases Nat.lt_trichotomy a.toNat b.toNat with h | h | h
      · left; simp [strLeChars, h]
      · rcases ih bs with h2 | h2
        · left; simp [strLeChars, h, h2, Nat.lt_irrefl]
        · right; simp [strLeChars, h, h2, Nat.lt_irrefl]
      · right; simp [strLeChars, h]

theorem strLeChars_trans (as : List Char) :
    ∀ bs cs, strLeChars as bs = true → strLeChars bs cs = true →
      strLeChars as cs = true := by
  induction as with
  | nil => intro bs cs _ _; rfl
  | cons a as ih =>
    intro bs cs h1 h2
    cases bs with
    | nil => simp [strLeChars] at h1
    | cons b bs =>
      cases cs with
      | nil => simp [strLeChars] at h2
      | cons c cs =>
        simp only [strLeChars] at h1 h2 ⊢
        by_cases hab : a.toNat < b.toNat
        · by_cases hbc : b.toNat < c.toNat
          · simp [Nat.lt_trans hab hbc]
          · by_cases hcb : c.toNat < b.toNat
            · simp [hbc, hcb] at h2
            · have : b.toNat = c.toNat := Nat.le_antisymm (Nat.le_of_not_lt hcb) (Nat.le_of_not_lt hbc)
              simp [this ▸ hab]
        · by_cases hba : b.toNat < a.toNat
          · simp [hab, hba] at h1
          · have hei : a.toNat = b.toNat := Nat.le_antisymm (Nat.le_of_not_lt hba) (Nat.le_of_not_lt hab)
            by_cases hbc : b.toNat < c.toNat
            · simp [hei ▸ hbc]
            · by_cases hcb : c.toNat < b.toNat
              · simp [hbc, hcb] at h2
              · have hac : ¬ a.toNat < c.toNat := by omega
                have hca : ¬ c.toNat < a.toNat := by omega
                simp only [hab, hba, if_neg hab, if_neg hba, if_neg hac, if_neg hca,
                  if_neg hbc, if_neg hcb] at h1 h2 ⊢
                exact ih bs cs h1 h2

theorem tsLe_total (a b : Option String) : tsLe a b = true ∨ tsLe b a = true := by
  cases a with
  | none => left; rfl
  | some x =>
    cases b with
    | none => right; rfl
    | some y => exact strLeChars_total x.data y.data

theorem tsLe_trans (a b c : Option String) (h1 : tsLe a b = true) (h2 : tsLe b c = true) :
    tsLe a c = true := by
  cases a with
  | none => rfl
  | some x =>
    cases b with
    | none => simp [tsLe] at h1
    | some y =>
      cases c with
      | none => simp [tsLe] at h2
      | some z => exact strLeChars_trans x.data y.data z.data h1 h2

theorem ratLe_total (a b : Rat) : decide (a ≤ b) = true ∨ decide (b ≤ a) = true := by
  rcases le_total a b with h | h
  · left; simpa using h
  · right; simpa using h

theorem ratLe_trans (a b c : Rat) (h1 : decide (a ≤ b) = true) (h2 : decide (b ≤ c) = true) :
    decide (a ≤ c) = true := by
  simp only [decide_eq_true_eq] at h1 h2 ⊢
  exact le_trans h1 h2

/-! ### Lemmas on the merge-and-deduplicate loop -/

theorem dedupInto_spec (rs : List SearchHit) :
    ∀ res seen, ∃ extra : List SearchHit,
      (dedupInto res seen rs).1 = res ++ extra ∧
      (dedupInto res seen rs).2 = seen ++ extra.map (fun h => h.id) ∧
      (∀ h ∈ extra, h ∈ rs ∧ h.id ∉ seen) ∧
      (extra.map (fun h => h.id)).Nodup ∧
      (∀ h ∈ rs, h.id ∈ seen ∨ h.id ∈ extra.map (fun h => h.id)) := by
  induction rs with
  | nil =>
    intro res seen
    exact ⟨[], by simp [dedupInto]⟩
  | cons r rs ih =>
    intro res seen
    by_cases h : r.id ∈ seen
    · rcases ih res seen with ⟨extra, h1, h2, h3, h4, h5⟩
      refine ⟨extra, ?_, ?_, ?_, h4, ?_⟩
      · simpa [dedupInto, h] using h1
      · simpa [dedupInto, h] using h2
      · intro x hx
        exact ⟨List.mem_cons_of_mem r (h3 x hx).1, (h3 x hx).2⟩
      · intro x hx
        rcases List.mem_cons.mp hx with rfl | hx
        · exact Or.inl h
        · exact h5 x hx
    · rcases ih (res ++ [r]) (seen ++ [r.id]) with ⟨extra, h1, h2, h3, h4, h5⟩
      refine ⟨r :: extra, ?_, ?_, ?_, ?_, ?_⟩
      · simpa [dedupInto, h] using h1
      · simpa [dedupInto, h] using h2
      · intro x hx
        rcases List.mem_cons.mp hx with rfl | hx
        · exact ⟨List.mem_cons_self _ _, h⟩
        · refine ⟨List.mem_cons_of_mem r (h3 x hx).1, ?_⟩
          intro hc
          exact (h3 x hx).2 (by simp [hc])
      · refine List.nodup_cons.mpr ⟨?_, h4⟩
        intro hc
        rcases List.mem_map.mp hc with ⟨x, hx, hxid⟩
        exact (h3 x hx).2 (by simp [hxid])
      · intro x hx
        rcases List.mem_cons.mp hx with rfl | hx
        · exact Or.inr (by simp)
        · rcases h5 x hx with hx2 | hx2
          · rcases List.mem_append.mp hx2 with hx3 | hx3
            · exact Or.inl hx3
            · exact Or.inr (by simp [List.mem_singleton.mp hx3])
          · exact Or.inr (List.mem_cons_of_mem _ hx2)

/-- Nodup of the mapped list pins the filter down to the one witness. -/
theorem filter_eq_single_of_nodup_map {l : List α} {f : α → String}
    (hn : (l.map f).Nodup) {x : α} (hx : x ∈ l) {c : String} (hfx : f x = c) :
    l.filter (fun y => f y = c) = [x] := by
  induction l with
  | nil => cases hx
  | cons a t ih =>
    have hn2 : (f a :: t.map f).Nodup := by simpa using hn
    have ha : f a ∉ t.map f := (List.nodup_cons.mp hn2).1
    have ht : (t.map f).Nodup := (List.nodup_cons.mp hn2).2
    rcases List.mem_cons.mp hx with rfl | hx
    · have ht0 : t.filter (fun y => f y = c) = [] := by
        refine List.filter_eq_nil_iff.mpr ?_
        intro b hb hc
        have hb2 : f b ∈ t.map f := List.mem_map_of_mem f hb
        have hbc : f b = c := by simpa using hc
        rw [hbc, ← hfx] at hb2
        exact ha hb2
      simp [List.filter_cons, hfx, ht0]
    · have hfa : ¬ (f a = c) := by
        intro hc
        have hx2 : f x ∈ t.map f := List.mem_map_of_mem f hx
        rw [hfx, ← hc] at hx2
        exact ha hx2
      simp only [List.filter_cons, decide_eq_true_eq, if_neg hfa]
      exact ih ht hx

/-! ### Supporting lemmas for the storage-layer claims -/

theorem relViolation_false_iff (kg : KG) (f t rel : String) :
    kg.relViolation f t rel = false ↔
      (∃ e ∈ kg.entities, e.id = f) ∧ (∃ e ∈ kg.entities, e.id = t) ∧
      ¬ ∃ r ∈ kg.relationships, r.from_id = f ∧ r.to_id = t ∧ r.relation = rel := by
  have eA : (kg.entities.any (fun e => e.id = f)) = true ↔ (∃ e ∈ kg.entities, e.id = f) := by
    simp
  have eB : (kg.entities.any (fun e => e.id = t)) = true ↔ (∃ e ∈ kg.entities, e.id = t) := by
    simp
  have eC : (kg.relationships.any (fun r => r.from_id = f && r.to_id = t && r.relation = rel))
      = true ↔ (∃ r ∈ kg.relationships, r.from_id = f ∧ r.to_id = t ∧ r.relation = rel) := by
    simp [and_assoc]
  cases hA : kg.entities.any (fun e => e.id = f) <;>
    cases hB : kg.entities.any (fun e => e.id = t) <;>
      cases hC : kg.relationships.any
          (fun r => r.from_id = f && r.to_id = t && r.relation = rel) <;>
        simp [KG.relViolation, hA, hB, hC, ← eA, ← eB, ← eC]

/-! ### Claim theorems -/

/-- Claim C6: every non-empty text strictly shorter than min_chunk_size
yields exactly one chunk, whose text is the stripped input, with start_char
0 and end_char the input length; empty text yields zero chunks. -/
theorem C6_chunk_short_text (c : TextChunker) (text : String) (md : Option MetaD)
    (h1 : text ≠ "") (h2 : text.length < c.min_chunk_size) :
    c.chunk text md = [⟨pyStrip text, 0, (text.length : Int), 0, md⟩] ∧
    c.chunk "" md = [] := by
  constructor
  · simp [TextChunker.chunk, h1, h2]
  · simp [TextChunker.chunk]

theorem C6_chunk_short_text_witness :
    TextChunker.chunk {} "hi" none = [⟨"hi", 0, 2, 0, none⟩] ∧
    TextChunker.chunk {} "" none = [] := by
  have h := C6_chunk_short_text {} "hi" none (by decide) (by decide)
  exact ⟨h.1.trans (by decide), h.2⟩

/-- Claim C4 (code bug): the claim says a text embedded earlier is served
from the cache with no provider call even by a new Embedder instance over
the same cache directory. The code writes the durable entry but never
reads it back (loading only logs the — never written — index file, and the
entry loader is dead code), so the restarted instance calls the provider
again. This theorem evaluates the failing input: first call networks and
persists the entry; a repeat on the same instance is a cache hit; a repeat
on a fresh instance over the same disk networks again. -/
theorem C4_embed_cache_not_restored_after_restart :
    (Embedder.embed (fun _ => [1]) (fun t => t) (Embedder.new ⟨[], none⟩) ⟨[], none⟩
      "hello").2.2.2 = true ∧
    alookup "hello" (Embedder.embed (fun _ => [1]) (fun t => t) (Embedder.new ⟨[], none⟩)
      ⟨[], none⟩ "hello").2.2.1.files = some [1] ∧
    (Embedder.embed (fun _ => [1]) (fun t => t)
      (Embedder.embed (fun _ => [1]) (fun t => t) (Embedder.new ⟨[], none⟩) ⟨[], none⟩ "hello").2.1
      (Embedder.embed (fun _ => [1]) (fun t => t) (Embedder.new ⟨[], none⟩) ⟨[], none⟩ "hello").2.2.1
      "hello").2.2.2 = false ∧
    (Embedder.embed (fun _ => [1]) (fun t => t)
      (Embedder.new (Embedder.embed (fun _ => [1]) (fun t => t) (Embedder.new ⟨[], none⟩)
        ⟨[], none⟩ "hello").2.2.1)
      (Embedder.embed (fun _ => [1]) (fun t => t) (Embedder.new ⟨[], none⟩) ⟨[], none⟩ "hello").2.2.1
      "hello").2.2.2 = true := by
  refine ⟨rfl, rfl, rfl, rfl⟩

/-- Claim C9: add_relationship reports True exactly when both endpoints
exist as entities (foreign keys are enforced) and the edge is not a
duplicate; on any violation it returns False with the store unchanged and
never raises; in particular an edge whose from_id is a content id — as the
Gmail indexer passes — is silently dropped. -/
theorem C9_add_relationship_constraints :
    (∀ (kg : KG) (f ft t tt rel : String) (md : Option String),
      ((kg.add_relationship f ft t tt rel md).1 = true ↔
        (∃ e ∈ kg.entities, e.id = f) ∧ (∃ e ∈ kg.entities, e.id = t) ∧
        ¬ ∃ r ∈ kg.relationships, r.from_id = f ∧ r.to_id = t ∧ r.relation = rel) ∧
      ((kg.add_relationship f ft t tt rel md).1 = false →
        (kg.add_relationship f ft t tt rel md).2 = kg) ∧
      ((kg.add_relationship f ft t tt rel md).1 = true →
        (kg.add_relationship f ft t tt rel md).2 =
          { kg with relationships := kg.relationships ++ [⟨f, ft, t, tt, rel, md⟩] })) ∧
    ((kgTwoPeople.add_relationship "gmail:acct:1" "email" "person:a" "person" "sender").1 = false ∧
     (kgTwoPeople.add_relationship "gmail:acct:1" "email" "person:a" "person" "sender").2
       = kgTwoPeople) := by
  constructor
  · intro kg f ft t tt rel md
    have hiff := relViolation_false_iff kg f t rel
    refine ⟨⟨?_, ?_⟩, ?_, ?_⟩
    · intro h1
      by_cases hv : kg.relViolation f t rel = true
      · simp [KG.add_relationship, hv] at h1
      · exact hiff.mp (by simpa using hv)
    · intro hp
      have hv : kg.relViolation f t rel = false := hiff.mpr hp
      simp [KG.add_relationship, hv]
    · intro h1
      by_cases hv : kg.relViolation f t rel = true
      · simp [KG.add_relationship, hv]
      · simp [KG.add_relationship, (by simpa using hv : kg.relViolation f t rel = false)] at h1
    · intro h1
      by_cases hv : kg.relViolation f t rel = true
      · simp [KG.add_relationship, hv] at h1
      · simp [KG.add_relationship, (by simpa using hv : kg.relViolation f t rel = false)]
  · exact ⟨by decide, by decide⟩

/-- Claim C3 counterexample: a successful add_relationship is a Storage
Layer write (it returns True and inserts an edge) that appends nothing to
the changelog, refuting the claim that every write is logged in the same
operation. -/
theorem C3_add_relationship_write_not_logged :
    (kgTwoPeople.add_relationship "person:a" "person" "person:b" "person" "knows").1 = true ∧
    (kgTwoPeople.add_relationship "person:a" "person" "person:b" "person" "knows").2.relationships.length
      = kgTwoPeople.relationships.length + 1 ∧
    (kgTwoPeople.add_relationship "person:a" "person" "person:b" "person" "knows").2.changelog
      = kgTwoPeople.changelog := by
  refine ⟨by decide, by decide, by decide⟩

/-- Claim C3 (amended): upsert_entity, upsert_content, delete_content and
delete_entity append exactly one changelog record within the same
operation (none for a delete that removed nothing); add_relationship and
set_last_sync write without logging; and no operation ever mutates or
deletes existing changelog records — each leaves the previous changelog as
a prefix. -/
theorem C3_changelog_discipline :
    (∀ kg now id ty nm src sa em md,
      (KG.upsert_entity kg now id ty nm src sa em md).2.changelog =
        kg.changelog ++ [⟨"entities", id,
          if kg.entities.any (fun r => r.id = id) then "update" else "insert", none, none⟩]) ∧
    (∀ kg now id ty src sa ti bo sid url ts md,
      (KG.upsert_content kg now id ty src sa ti bo sid url ts md).2.changelog =
        kg.changelog ++ [⟨"content", id,
          if kg.content.any (fun r => r.id = id) then "update" else "insert", none, none⟩]) ∧
    (∀ kg id, (KG.delete_content kg id).2.changelog =
      if kg.content.any (fun r => r.id = id) then
        kg.changelog ++ [⟨"content", id, "delete", none, none⟩]
      else kg.changelog) ∧
    (∀ kg id, (KG.delete_entity kg id).2.changelog =
      if kg.entities.any (fun r => r.id = id) then
        kg.changelog ++ [⟨"entities", id, "delete", none, none⟩]
      else kg.changelog) ∧
    (∀ kg f ft t tt rel md,
      (KG.add_relationship kg f ft t tt rel md).2.changelog = kg.changelog) ∧
    (∀ kg s a ls tok md, (KG.set_last_sync kg s a ls tok md).changelog = kg.changelog) ∧
    (∀ kg now id ty nm src sa em md,
      kg.changelog <+: (KG.upsert_entity kg now id ty nm src sa em md).2.changelog) ∧
    (∀ kg id, kg.changelog <+: (KG.delete_content kg id).2.changelog) := by
  refine ⟨?_, ?_, ?_, ?_, ?_, ?_, ?_, ?_⟩
  · intro kg now id ty nm src sa em md
    by_cases h : kg.entities.any (fun r => r.id = id) = true
    · simp [KG.upsert_entity, KG.log_change, h]
    · simp [KG.upsert_entity, KG.log_change, h]
  · intro kg now id ty src sa ti bo sid url ts md
    by_cases h : kg.content.any (fun r => r.id = id) = true
    · simp [KG.upsert_content, KG.log_change, h]
    · simp [KG.upsert_content, KG.log_change, h]
  · intro kg id
    by_cases h : kg.content.any (fun r => r.id = id) = true
    · simp [KG.delete_content, KG.log_change, h]
    · simp [KG.delete_content, KG.log_change, h]
  · intro kg id
    by_cases h : kg.entities.any (fun r => r.id = id) = true
    · simp [KG.delete_entity, KG.log_change, h]
    · simp [KG.delete_entity, KG.log_change, h]
  · intro kg f ft t tt rel md
    by_cases h : kg.relViolation f t rel = true
    · simp [KG.add_relationship, h]
    · simp [KG.add_relationship, h]
  · intro kg s a ls tok md
    by_cases h : kg.sync_state.any (fun r => r.source = s && r.account = a) = true
    · simp [KG.set_last_sync, h]
    · simp [KG.set_last_sync, h]
  · intro kg now id ty nm src sa em md
    by_cases h : kg.entities.any (fun r => r.id = id) = true
    · exact ⟨[⟨"entities", id, "update", none, none⟩],
        by simp [KG.upsert_entity, KG.log_change, h]⟩
    · exact ⟨[⟨"entities", id, "insert", none, none⟩],
        by simp [KG.upsert_entity, KG.log_change, h]⟩
  · intro kg id
    by_cases h : kg.content.any (fun r => r.id = id) = true
    · exact ⟨[⟨"content", id, "delete", none, none⟩],
        by simp [KG.delete_content, KG.log_change, h]⟩
    · exact ⟨[], by simp [KG.delete_content, h]⟩

/-- Claim C2 counterexample: two identical upsert_entity calls one second
apart return (True, False) as claimed, but the stored row is changed by
the second call — its updated_at column is rewritten to the new
CURRENT_TIMESTAMP — refuting the unchanged-row part. -/
theorem C2_second_upsert_changes_stored_row :
    (KG.empty.upsert_entity "2024-01-01T00:00:00" "person:x" "person" "X" "gmail" none none
      none).1 = true ∧
    ((KG.empty.upsert_entity "2024-01-01T00:00:00" "person:x" "person" "X" "gmail" none none
        none).2.upsert_entity "2024-01-01T00:00:01" "person:x" "person" "X" "gmail" none none
        none).1 = false ∧
    KG.get_entity ((KG.empty.upsert_entity "2024-01-01T00:00:00" "person:x" "person" "X"
        "gmail" none none none).2.upsert_entity "2024-01-01T00:00:01" "person:x" "person" "X"
        "gmail" none none none).2 "person:x"
      ≠ KG.get_entity (KG.empty.upsert_entity "2024-01-01T00:00:00" "person:x" "person" "X"
        "gmail" none none none).2 "person:x" := by
  refine ⟨by decide, by decide, by decide⟩


/-- One-step unfolding of upsert_entity when the id is absent. -/
theorem upsert_entity_insert_eq (kg : KG) (now id ty nm src : String)
    (sa em md : Option String) (h : ¬ ∃ x ∈ kg.entities, x.id = id) :
    KG.upsert_entity kg now id ty nm src sa em md =
      (true, { kg with
        entities := kg.entities ++ [⟨id, ty, nm, em, src, sa, md, now, now⟩],
        changelog := kg.changelog ++ [⟨"entities", id, "insert", none, none⟩] }) := by
  simp [KG.upsert_entity, KG.log_change, h]

/-- One-step unfolding of upsert_entity when the id is present. -/
theorem upsert_entity_update_eq (kg : KG) (now id ty nm src : String)
    (sa em md : Option String) (h : ∃ x ∈ kg.entities, x.id = id) :
    KG.upsert_entity kg now id ty nm src sa em md =
      (false, { kg with
        entities := kg.entities.map (fun r => if r.id = id then
          { r with etype := ty, name := nm, email := em, source := src,
                   source_account := sa, metadata := md, updated_at := now } else r),
        changelog := kg.changelog ++ [⟨"entities", id, "update", none, none⟩] }) := by
  simp [KG.upsert_entity, KG.log_change, h]

/-- One-step unfolding of upsert_content when the id is absent. -/
theorem upsert_content_insert_eq (kg : KG) (now id ty src : String)
    (sa ti bo sid url ts md : Option String) (h : ¬ ∃ x ∈ kg.content, x.id = id) :
    KG.upsert_content kg now id ty src sa ti bo sid url ts md =
      (true, { kg with
        content := kg.content ++ [⟨id, ty, ti, bo, src, sa, sid, url, ts, md, now, now⟩],
        changelog := kg.changelog ++ [⟨"content", id, "insert", none, none⟩] }) := by
  simp [KG.upsert_content, KG.log_change, h]

/-- One-step unfolding of upsert_content when the id is present. -/
theorem upsert_content_update_eq (kg : KG) (now id ty src : String)
    (sa ti bo sid url ts md : Option String) (h : ∃ x ∈ kg.content, x.id = id) :
    KG.upsert_content kg now id ty src sa ti bo sid url ts md =
      (false, { kg with
        content := kg.content.map (fun r => if r.id = id then
          { r with ctype := ty, title := ti, body := bo, source := src,
                   source_account := sa, source_id := sid, url := url,
                   timestamp := ts, metadata := md, updated_at := now } else r),
        changelog := kg.changelog ++ [⟨"content", id, "update", none, none⟩] }) := by
  simp [KG.upsert_content, KG.log_change, h]

/-- Claim C2 (amended): calling upsert_entity (respectively upsert_content)
twice in a row with identical field values on a fresh record returns True
on the first call and False on the second, and the second call leaves
every stored column unchanged except updated_at, which is rewritten to the
second call CURRENT_TIMESTAMP (so the row is unchanged exactly when the
two calls fall in the same clock instant). -/
theorem C2_upsert_idempotent_modulo_updated_at :
    (∀ (kg : KG) (t1 t2 id ty nm src : String) (sa em md : Option String),
      (∀ r ∈ kg.entities, r.id ≠ id) →
      ((KG.upsert_entity kg t1 id ty nm src sa em md).1 = true ∧
       (KG.upsert_entity (KG.upsert_entity kg t1 id ty nm src sa em md).2
          t2 id ty nm src sa em md).1 = false ∧
       (KG.upsert_entity (KG.upsert_entity kg t1 id ty nm src sa em md).2
          t2 id ty nm src sa em md).2.entities =
         (KG.upsert_entity kg t1 id ty nm src sa em md).2.entities.map
           (fun r => if r.id = id then { r with updated_at := t2 } else r) ∧
       KG.get_entity (KG.upsert_entity (KG.upsert_entity kg t1 id ty nm src sa em md).2
          t2 id ty nm src sa em md).2 id = some ⟨id, ty, nm, em, src, sa, md, t1, t2⟩)) ∧
    (∀ (kg : KG) (t1 t2 id ty src : String) (sa ti bo sid url ts md : Option String),
      (∀ r ∈ kg.content, r.id ≠ id) →
      ((KG.upsert_content kg t1 id ty src sa ti bo sid url ts md).1 = true ∧
       (KG.upsert_content (KG.upsert_content kg t1 id ty src sa ti bo sid url ts md).2
          t2 id ty src sa ti bo sid url ts md).1 = false ∧
       (KG.upsert_content (KG.upsert_content kg t1 id ty src sa ti bo sid url ts md).2
          t2 id ty src sa ti bo sid url ts md).2.content =
         (KG.upsert_content kg t1 id ty src sa ti bo sid url ts md).2.content.map
           (fun r => if r.id = id then { r with updated_at := t2 } else r) ∧
       KG.get_content (KG.upsert_content (KG.upsert_content kg t1 id ty src sa ti bo sid
          url ts md).2 t2 id ty src sa ti bo sid url ts md).2 id =
         some ⟨id, ty, ti, bo, src, sa, sid, url, ts, md, t1, t2⟩)) := by
  constructor
  · intro kg t1 t2 id ty nm src sa em md habs
    have hex : ¬ ∃ x ∈ kg.entities, x.id = id := by
      rintro ⟨x, hx, rfl⟩
      exact habs x hx rfl
    have h1 := upsert_entity_insert_eq kg t1 id ty nm src sa em md hex
    have hex2 : ∃ x ∈ (KG.upsert_entity kg t1 id ty nm src sa em md).2.entities,
        x.id = id := by
      rw [h1]
      exact ⟨⟨id, ty, nm, em, src, sa, md, t1, t1⟩, by simp, rfl⟩
    have h2 := upsert_entity_update_eq (KG.upsert_entity kg t1 id ty nm src sa em md).2
      t2 id ty nm src sa em md hex2
    refine ⟨by rw [h1], by rw [h2], ?_, ?_⟩
    · rw [h2]
      refine List.map_congr_left ?_
      intro r hr
      rw [h1] at hr
      rcases List.mem_append.mp hr with hr | hr
      · have : r.id ≠ id := habs r hr
        simp [this]
      · rcases List.mem_singleton.mp hr with rfl
        simp
    · have e1 : (KG.upsert_entity kg t1 id ty nm src sa em md).2.entities =
          kg.entities ++ [⟨id, ty, nm, em, src, sa, md, t1, t1⟩] := by rw [h1]
      have e2 : (KG.upsert_entity (KG.upsert_entity kg t1 id ty nm src sa em md).2
          t2 id ty nm src sa em md).2.entities =
          (kg.entities ++ [(⟨id, ty, nm, em, src, sa, md, t1, t1⟩ : EntityRow)]).map
            (fun (r : EntityRow) => if r.id = id then
              { r with etype := ty, name := nm, email := em, source := src,
                       source_account := sa, metadata := md, updated_at := t2 } else r) := by
        rw [h2, e1]
      unfold KG.get_entity
      rw [e2, List.map_append, List.find?_append]
      have hnone : ((kg.entities.map
          (fun r => if r.id = id then
            { r with etype := ty, name := nm, email := em, source := src,
                     source_account := sa, metadata := md, updated_at := t2 }
          else r)).find? (fun r => r.id = id)) = none := by
        refine List.find?_eq_none.mpr ?_
        intro x hx
        rcases List.mem_map.mp hx with ⟨r, hr, rfl⟩
        have : r.id ≠ id := habs r hr
        simp [this]
      rw [hnone]
      simp
  · intro kg t1 t2 id ty src sa ti bo sid url ts md habs
    have hex : ¬ ∃ x ∈ kg.content, x.id = id := by
      rintro ⟨x, hx, rfl⟩
      exact habs x hx rfl
    have h1 := upsert_content_insert_eq kg t1 id ty src sa ti bo sid url ts md hex
    have hex2 : ∃ x ∈ (KG.upsert_content kg t1 id ty src sa ti bo sid url ts md).2.content,
        x.id = id := by
      rw [h1]
      exact ⟨⟨id, ty, ti, bo, src, sa, sid, url, ts, md, t1, t1⟩, by simp, rfl⟩
    have h2 := upsert_content_update_eq (KG.upsert_content kg t1 id ty src sa ti bo sid url
      ts md).2 t2 id ty src sa ti bo sid url ts md hex2
    refine ⟨by rw [h1], by rw [h2], ?_, ?_⟩
    · rw [h2]
      refine List.map_congr_left ?_
      intro r hr
      rw [h1] at hr
      rcases List.mem_append.mp hr with hr | hr
      · have : r.id ≠ id := habs r hr
        simp [this]
      · rcases List.mem_singleton.mp hr with rfl
        simp
    · have e1 : (KG.upsert_content kg t1 id ty src sa ti bo sid url ts md).2.content =
          kg.content ++ [⟨id, ty, ti, bo, src, sa, sid, url, ts, md, t1, t1⟩] := by rw [h1]
      have e2 : (KG.upsert_content (KG.upsert_content kg t1 id ty src sa ti bo sid url ts
          md).2 t2 id ty src sa ti bo sid url ts md).2.content =
          (kg.content ++ [(⟨id, ty, ti, bo, src, sa, sid, url, ts, md, t1, t1⟩ : ContentRow)]).map
            (fun (r : ContentRow) => if r.id = id then
              { r with ctype := ty, title := ti, body := bo, source := src,
                       source_account := sa, source_id := sid, url := url,
                       timestamp := ts, metadata := md, updated_at := t2 } else r) := by
        rw [h2, e1]
      unfold KG.get_content
      rw [e2, List.map_append, List.find?_append]
      have hnone : ((kg.content.map
          (fun r => if r.id = id then
            { r with ctype := ty, title := ti, body := bo, source := src,
                     source_account := sa, source_id := sid, url := url,
                     timestamp := ts, metadata := md, updated_at := t2 }
          else r)).find? (fun r => r.id = id)) = none := by
        refine List.find?_eq_none.mpr ?_
        intro x hx
        rcases List.mem_map.mp hx with ⟨r, hr, rfl⟩
        have : r.id ≠ id := habs r hr
        simp [this]
      rw [hnone]
      simp

theorem C2_upsert_idempotent_witness :
    (KG.empty.upsert_entity "t1" "person:x" "person" "X" "gmail" none none none).1 = true ∧
    ((KG.empty.upsert_entity "t1" "person:x" "person" "X" "gmail" none none
        none).2.upsert_entity "t2" "person:x" "person" "X" "gmail" none none none).1 = false ∧
    KG.get_entity ((KG.empty.upsert_entity "t1" "person:x" "person" "X" "gmail" none none
        none).2.upsert_entity "t2" "person:x" "person" "X" "gmail" none none none).2 "person:x"
      = some ⟨"person:x", "person", "X", none, "gmail", none, none, "t1", "t2"⟩ := by
  have h := C2_upsert_idempotent_modulo_updated_at.1 KG.empty "t1" "t2" "person:x" "person"
    "X" "gmail" none none none (by intro r hr; cases hr)
  exact ⟨h.1, h.2.1, h.2.2.2⟩

/-- Title-or-body LIKE disjunction as a proposition. -/
theorem titleBodyMatch_iff (r : ContentRow) (q : String) :
    ((r.title.elim false (fun t => likeMatch t q)) ||
     (r.body.elim false (fun b => likeMatch b q))) = true ↔
      ((∃ t, r.title = some t ∧ likeMatch t q = true) ∨
       (∃ b, r.body = some b ∧ likeMatch b q = true)) := by
  cases r.title <;> cases r.body <;> simp

/-- A skipped-or-satisfied optional condition as a proposition. -/
theorem condOpt_eq_iff {α : Type} (arg : Option α) (f : α → Bool) :
    condOpt arg f = true ↔ ∀ a ∈ arg, f a = true := by
  cases arg <;> simp [condOpt]

theorem optElimEq_iff (o : Option String) (a : String) :
    (o.elim false (fun x => x = a)) = true ↔ o = some a := by
  cases o <;> simp

theorem optLeElim_iff (o : Option String) (s0 : String) :
    (o.elim false (fun t => sqliteLe s0 t)) = true ↔
      ∃ t, o = some t ∧ sqliteLe s0 t = true := by
  cases o <;> simp

theorem optGeElim_iff (o : Option String) (u : String) :
    (o.elim false (fun t => sqliteLe t u)) = true ↔
      ∃ t, o = some t ∧ sqliteLe t u = true := by
  cases o <;> simp

/-- The WHERE clause of search_content as a proposition, for a non-empty
provided query. -/
theorem matches_iff (r : ContentRow) (q : String) (hq : q ≠ "")
    (ct src acct since until_ : Option String) :
    r.matches (some q) ct src acct since until_ = true ↔
      (((∃ t, r.title = some t ∧ likeMatch t q = true) ∨
        (∃ b, r.body = some b ∧ likeMatch b q = true)) ∧
       (∀ c ∈ ct, r.ctype = c) ∧
       (∀ s ∈ src, r.source = s) ∧
       (∀ a ∈ acct, r.source_account = some a) ∧
       (∀ s ∈ since, ∃ t, r.timestamp = some t ∧ sqliteLe s t = true) ∧
       (∀ u ∈ until_, ∃ t, r.timestamp = some t ∧ sqliteLe t u = true)) := by
  have h0 : r.matches (some q) ct src acct since until_ =
      (((r.title.elim false (fun t => likeMatch t q)) ||
        (r.body.elim false (fun b => likeMatch b q))) &&
       condOpt ct (fun c => r.ctype = c) &&
       condOpt src (fun s0 => r.source = s0) &&
       condOpt acct (fun a => r.source_account.elim false (fun x => x = a)) &&
       condOpt since (fun s0 => r.timestamp.elim false (fun t => sqliteLe s0 t)) &&
       condOpt until_ (fun u => r.timestamp.elim false (fun t => sqliteLe t u))) := by
    simp [ContentRow.matches, hq]
  rw [h0]
  simp only [Bool.and_eq_true, titleBodyMatch_iff, condOpt_eq_iff, optElimEq_iff,
    optLeElim_iff, optGeElim_iff, decide_eq_true_eq, and_assoc]

/-- A pattern consisting of a single percent wildcard matches every
text. -/
theorem likeB_pct_head (t : List Char) : likeB ['%'] t = true := by
  simp [likeB]

/-- A wildcard-free pattern matches exactly the texts equal to it up to
ASCII case folding. -/
theorem likeB_lit_iff : ∀ (p : List Char),
    p.all (fun c => !(c = '%') && !(c = '_')) = true →
    ∀ t, likeB p t = true ↔ p.map lowerChar = t.map lowerChar := by
  intro p
  induction p with
  | nil => intro _ t; cases t <;> simp [likeB]
  | cons pc ps ih =>
    intro hw t
    simp only [List.all_cons, Bool.and_eq_true, Bool.not_eq_true',
      decide_eq_false_iff_not] at hw
    cases t with
    | nil => simp [likeB, hw.1.1]
    | cons c ts => simp [likeB, hw.1.1, hw.1.2, ih hw.2 ts]

/-- A wildcard-free pattern followed by a percent matches exactly the
texts it case-folds to a prefix of. -/
theorem likeB_litpct_iff : ∀ (p : List Char),
    p.all (fun c => !(c = '%') && !(c = '_')) = true →
    ∀ t, likeB (p ++ ['%']) t = true ↔ (p.map lowerChar) <+: (t.map lowerChar) := by
  intro p
  induction p with
  | nil => intro _ t; simp [likeB_pct_head t]
  | cons pc ps ih =>
    intro hw t
    simp only [List.all_cons, Bool.and_eq_true, Bool.not_eq_true',
      decide_eq_false_iff_not] at hw
    cases t with
    | nil => simp [likeB, hw.1.1]
    | cons c ts =>
      simp [likeB, hw.1.1, hw.1.2, ih hw.2 ts, List.cons_prefix_cons]

/-- For a wildcard-free query, the LIKE condition of search_content holds
exactly when the case-folded query is an infix of the case-folded
column value. -/
theorem likeMatch_iff_infix (hay pat : String)
    (hw : pat.data.all (fun c => !(c = '%') && !(c = '_')) = true) :
    likeMatch hay pat = true ↔
      (pat.data.map lowerChar) <:+: (hay.data.map lowerChar) := by
  have h0 : likeMatch hay pat
      = hay.data.tails.any (fun ts => likeB (pat.data ++ ['%']) ts) := by
    simp [likeMatch, likeB]
  rw [h0, List.any_eq_true]
  constructor
  · rintro ⟨ts, hmem, hts⟩
    have hsuf : ts <:+ hay.data := (List.mem_tails _ _).mp hmem
    have hpre := (likeB_litpct_iff pat.data hw ts).mp hts
    exact List.infix_iff_prefix_suffix.mpr ⟨ts.map lowerChar, hpre, hsuf.map lowerChar⟩
  · intro hinf
    rcases List.infix_iff_prefix_suffix.mp hinf with ⟨t, hp, hs⟩
    rcases hs with ⟨pre, hpre⟩
    have ht : t = (hay.data.map lowerChar).drop pre.length := by
      rw [← hpre, List.drop_left]
    have hmap : (hay.data.drop pre.length).map lowerChar = t := by
      rw [ht, List.map_drop]
    refine ⟨hay.data.drop pre.length,
      (List.mem_tails _ _).mpr (List.drop_suffix _ _), ?_⟩
    exact (likeB_litpct_iff pat.data hw _).mpr (by rw [hmap]; exact hp)

/-- Positivity of the non-overlapping occurrence count is exactly infix
membership of the needle. -/
theorem countOccA_pos_iff (n : List Char) (hn : n ≠ []) :
    ∀ h : List Char, 0 < countOccA n h 0 ↔ n <:+: h := by
  intro h
  induction h with
  | nil =>
    simp only [countOccA, Nat.lt_irrefl, false_iff]
    intro hc
    exact hn (List.eq_nil_of_infix_nil hc)
  | cons c rest ih =>
    by_cases hp : n.isPrefixOf (c :: rest)
    · constructor
      · intro _
        exact (List.isPrefixOf_iff_prefix.mp hp).isInfix
      · intro _
        simp [countOccA, hp]
    · have hnp : ¬ (n <+: (c :: rest)) := fun hc => hp (List.isPrefixOf_iff_prefix.mpr hc)
      have he : countOccA n (c :: rest) 0 = countOccA n rest 0 := by
        simp [countOccA, hp]
      rw [he, ih]
      constructor
      · intro hi
        exact List.infix_cons hi
      · intro hi
        rcases List.infix_cons_iff.mp hi with hpre | hsuf2
        · exact absurd hpre hnp
        · exact hsuf2

theorem countOcc_pos_iff (h n : List Char) : 0 < countOcc h n ↔ n <:+: h := by
  cases n with
  | nil => simp [countOcc, List.nil_infix]
  | cons c cs => exact countOccA_pos_iff (c :: cs) (by simp) h

/-- The substring reading of query matching holds exactly when the
case-folded query is an infix of the case-folded column value. -/
theorem substrCI_iff_infix (hay pat : String) :
    substrCI hay pat = true ↔
      (pat.data.map lowerChar) <:+: (hay.data.map lowerChar) := by
  have h0 : substrCI hay pat
      = decide (0 < countOcc (hay.data.map lowerChar) (pat.data.map lowerChar)) := rfl
  rw [h0, decide_eq_true_eq]
  exact countOcc_pos_iff _ _

/-- On queries free of LIKE metacharacters, the LIKE condition of
search_content coincides with the case-insensitive substring test. -/
theorem likeMatch_eq_substrCI (hay pat : String) (hw : noWild pat = true) :
    likeMatch hay pat = substrCI hay pat := by
  have hw2 : pat.data.all (fun c => !(c = '%') && !(c = '_')) = true := by
    simpa [noWild] using hw
  have h1 := likeMatch_iff_infix hay pat hw2
  have h2 := substrCI_iff_infix hay pat
  cases hl : likeMatch hay pat with
  | true => exact (h2.mpr (h1.mp hl)).symm
  | false =>
    cases hs : substrCI hay pat with
    | true => exact absurd (h1.mpr (h2.mp hs)) (by simp [hl])
    | false => rfl

/-- Claim C7, counterexample to the frozen substring wording: the query
a_b is not a case-insensitive substring of the title axb (and the row has
no body), yet search_content returns the row, because the underscore of
the query stays active as a LIKE wildcard inside the bound pattern. -/
theorem C7_wildcard_query_counterexample :
    kgAxb.search_content (some "a_b") none none none none none 10 = [rowAxb] ∧
    rowAxb.title = some "axb" ∧ rowAxb.body = none ∧
    substrCI "axb" "a_b" = false :=
  ⟨by decide, rfl, rfl, by decide⟩

/-- Claim C7 (amended): search_content matches the query against title and
body under SQLite LIKE semantics — the bound pattern is percent ++ query
++ percent, with percent and underscore wildcards inside the query still
active — which coincides with a case-insensitive substring match exactly
when the query is free of LIKE metacharacters; every provided optional
filter is combined with AND, since and until are inclusive bounds, and at
most limit rows are returned ordered by timestamp descending — sound for
every returned row and complete whenever the matching rows fit within the
limit. -/
theorem C7_search_content_like_spec (kg : KG) (q : String) (hq : q ≠ "")
    (ct src acct since until_ : Option String) (limit : Nat) :
    SearchContentSpec kg q ct src acct since until_ limit ∧
    (noWild q = true → ∀ hay : String, likeMatch hay q = substrCI hay q) := by
  refine ⟨⟨?_, ?_, ?_, ?_⟩, fun hw hay => likeMatch_eq_substrCI hay q hw⟩
  · exact List.length_take_le limit _
  · refine List.Pairwise.sublist (List.take_sublist _ _) ?_
    exact pairwise_sortDescBy (fun r : ContentRow => r.timestamp) tsLe tsLe_total tsLe_trans _
  · intro r hr
    have hr2 : r ∈ sortDescBy (fun r : ContentRow => r.timestamp) tsLe
        (kg.content.filter
          (fun r => r.matches (some q) ct src acct since until_)) :=
      List.mem_of_mem_take hr
    have hr3 : r ∈ kg.content.filter
        (fun r => r.matches (some q) ct src acct since until_) :=
      (sortDescBy_perm _ _ _).mem_iff.mp hr2
    rcases List.mem_filter.mp hr3 with ⟨hmem, hmatch⟩
    exact ⟨hmem, (matches_iff r q hq ct src acct since until_).mp (by simpa using hmatch)⟩
  · intro hlen r hmem hprops
    have hmatch : r.matches (some q) ct src acct since until_ = true :=
      (matches_iff r q hq ct src acct since until_).mpr hprops
    have hr3 : r ∈ kg.content.filter
        (fun r => r.matches (some q) ct src acct since until_) :=
      List.mem_filter.mpr ⟨hmem, by simpa using hmatch⟩
    have hr2 : r ∈ sortDescBy (fun r : ContentRow => r.timestamp) tsLe
        (kg.content.filter (fun r => r.matches (some q) ct src acct since until_)) :=
      (sortDescBy_perm _ _ _).mem_iff.mpr hr3
    have hslen : (sortDescBy (fun r : ContentRow => r.timestamp) tsLe
        (kg.content.filter
          (fun r => r.matches (some q) ct src acct since until_))).length ≤ limit := by
      rw [(sortDescBy_perm (fun r : ContentRow => r.timestamp) tsLe _).length_eq]
      exact hlen
    have : (sortDescBy (fun r : ContentRow => r.timestamp) tsLe
        (kg.content.filter (fun r => r.matches (some q) ct src acct since until_))).take limit
        = sortDescBy (fun r : ContentRow => r.timestamp) tsLe
          (kg.content.filter (fun r => r.matches (some q) ct src acct since until_)) :=
      List.take_of_length_le hslen
    unfold KG.search_content
    rw [this]
    exact hr2

theorem C7_search_content_like_spec_witness :
    ("report" : String) ≠ "" ∧
    (SearchContentSpec kgDocs "report" none none none
       (some "2020-01-01T00:00:00") none 100 ∧
     (noWild "report" = true →
       ∀ hay : String, likeMatch hay "report" = substrCI hay "report")) :=
  ⟨by decide,
   C7_search_content_like_spec kgDocs "report" (by decide) none none none
     (some "2020-01-01T00:00:00") none 100⟩


/-! ### Stats-key preservation through the full-index loop -/

theorem keys_astore_of_found {l : List (String × Nat)} {k : String} {w : Nat}
    (h : alookup k l = some w) (v : Nat) : Stats.keys (astore k v l) = Stats.keys l := by
  induction l with
  | nil => simp [alookup] at h
  | cons p rest ih =>
    by_cases hk : p.1 = k
    · simp [astore, hk, Stats.keys]
    · have h2 : alookup k rest = some w := by
        simpa [alookup, hk] using h
      simp [astore, hk, Stats.keys]
      simpa [Stats.keys] using ih h2

theorem incr_keys {s : Stats} {k : String} {s2 : Stats} (h : s.incr k = some s2) :
    Stats.keys s2 = Stats.keys s := by
  unfold Stats.incr at h
  cases hl : alookup k s with
  | none => rw [hl] at h; cases h
  | some w =>
    rw [hl] at h
    cases h
    exact keys_astore_of_found hl _

theorem bump_keys (s : Stats) (k : String) : Stats.keys (s.bump k) = Stats.keys s := by
  unfold Stats.bump
  cases hi : s.incr k with
  | none => rfl
  | some s2 => exact incr_keys hi

theorem keys_index_people (now account content_id : String) :
    ∀ (ps : List PersonRec) (kg : KG) (stats : Stats),
      Stats.keys ((index_people now account content_id ps kg stats).2.1) = Stats.keys stats := by
  intro ps
  induction ps with
  | nil => intro kg stats; rfl
  | cons p ps ih =>
    intro kg stats
    simp only [index_people]
    split
    · split
      · rfl
      · rename_i stats2 hi
        rw [ih]
        exact incr_keys hi
    · exact ih _ _

theorem keys_index_message (now account : String) (m : ParsedEmail) (kg : KG) (stats : Stats) :
    Stats.keys ((index_message now account m kg stats).2.1) = Stats.keys stats := by
  simp only [index_message]
  split
  · exact keys_index_people now account _ (extract_people m) kg stats
  · split
    · split
      · exact keys_index_people now account _ (extract_people m) kg stats
      · rename_i stats2 hi
        exact (incr_keys hi).trans (keys_index_people now account _ (extract_people m) kg stats)
    · exact keys_index_people now account _ (extract_people m) kg stats

theorem keys_process_page (now account : String) :
    ∀ (fs : List Fetch) (kg : KG) (stats : Stats),
      Stats.keys ((process_page now account fs kg stats).2) = Stats.keys stats := by
  intro fs
  induction fs with
  | nil => intro kg stats; rfl
  | cons f fs ih =>
    intro kg stats
    cases f with
    | raised => exact (ih _ _).trans (bump_keys stats "errors")
    | missing => exact ih _ _
    | msg m =>
      simp only [process_page]
      split
      · exact (ih _ _).trans ((bump_keys _ _).trans (keys_index_message now account m kg stats))
      · exact (ih _ _).trans ((bump_keys _ _).trans (keys_index_message now account m kg stats))

theorem keys_index_all_go (now account : String) (mx : Nat) :
    ∀ (pages : List (Except String (Option (List Fetch)))) (kg : KG) (stats : Stats),
      Stats.keys ((index_all_go now account mx pages kg stats).2) = Stats.keys stats := by
  intro pages
  induction pages with
  | nil => intro kg stats; rfl
  | cons page rest ih =>
    intro kg stats
    simp only [index_all_go]
    split
    · cases page with
      | error e => exact bump_keys stats "errors"
      | ok o =>
        cases o with
        | none => rfl
        | some msgs => exact (ih _ _).trans (keys_process_page now account msgs kg stats)
    · rfl

/-- Claim C5: a delta sync that finds no prior SyncState row for the
account, or a stored token that is missing (or empty, which Python
truthiness also treats as absent), performs a full index instead, and the
stats dictionary it returns carries exactly the full-sync keys
(messages_processed, messages_indexed, people_extracted, errors), not the
delta-sync keys (messages_added, messages_deleted). -/
theorem C5_delta_without_syncstate_falls_back_to_full (accounts : List String)
    (client : GmailClient) (kg : KG) (now account : String)
    (hacct : accounts.contains account = true)
    (htok : (kg.get_last_sync "gmail" account).bind (fun s => s.last_sync_token) = none ∨
            (kg.get_last_sync "gmail" account).bind (fun s => s.last_sync_token) = some "") :
    index_delta accounts client kg now account
      = index_all accounts client kg now account 10000 ∧
    ∃ kg2 stats, index_delta accounts client kg now account = Except.ok (kg2, stats) ∧
      Stats.keys stats
        = ["messages_processed", "messages_indexed", "people_extracted", "errors"] ∧
      "messages_added" ∉ Stats.keys stats ∧ "messages_deleted" ∉ Stats.keys stats := by
  have hfall : index_delta accounts client kg now account
      = index_all accounts client kg now account 10000 := by
    unfold index_delta
    rw [if_neg (by rw [hacct]; decide)]
    rcases htok with h | h
    · rw [h]
    · rw [h]
      simp
  refine ⟨hfall, ?_⟩
  have hkeys : Stats.keys ((index_all_go now account 10000 client.pages kg full_init).2)
      = ["messages_processed", "messages_indexed", "people_extracted", "errors"] :=
    keys_index_all_go now account 10000 client.pages kg full_init
  refine ⟨(index_all_go now account 10000 client.pages kg full_init).1.set_last_sync
      "gmail" account now client.profile_history_id
      (syncMeta "full" (index_all_go now account 10000 client.pages kg full_init).2),
    (index_all_go now account 10000 client.pages kg full_init).2, ?_, hkeys, ?_, ?_⟩
  · rw [hfall]
    unfold index_all
    rw [if_neg (by rw [hacct]; decide)]
  · rw [hkeys]; decide
  · rw [hkeys]; decide

theorem C5_delta_fallback_witness :
    index_delta ["acct"] clientW KG.empty ts0 "acct"
      = index_all ["acct"] clientW KG.empty ts0 "acct" 10000 ∧
    ∃ kg2 stats, index_delta ["acct"] clientW KG.empty ts0 "acct" = Except.ok (kg2, stats) ∧
      Stats.keys stats
        = ["messages_processed", "messages_indexed", "people_extracted", "errors"] ∧
      "messages_added" ∉ Stats.keys stats ∧ "messages_deleted" ∉ Stats.keys stats :=
  C5_delta_without_syncstate_falls_back_to_full ["acct"] clientW KG.empty ts0 "acct"
    (by decide) (Or.inl rfl)


/-! ### Lemmas on the two search branches -/

theorem semantic_search_type (vs : VectorStore) (e : List Rat)
    (cts : Option (List String)) (k : Nat) :
    ∀ h ∈ semantic_search vs e cts k, h.search_type = "semantic" := by
  intro h hm
  simp only [semantic_search, List.mem_flatMap, List.mem_map] at hm
  rcases hm with ⟨coll, _, v, _, rfl⟩
  rfl

theorem keyword_search_mem (kg : KG) (q : String) (cts ss : Option (List String))
    (si u : Option String) (lim : Nat) {h : SearchHit}
    (hm : h ∈ keyword_search kg q cts ss si u lim) :
    ∃ r : ContentRow, h.row = some r ∧ h.score = keywordScore q r ∧
      h.search_type = "keyword" := by
  simp only [keyword_search, List.mem_map] at hm
  rcases hm with ⟨r, _, rfl⟩
  exact ⟨r, rfl, rfl, rfl⟩

/-- How `search` computes when both branches run and neither raises. -/
theorem search_eq_both (vs : VectorStore) (kg : KG) (e : List Rat) (q : String)
    (cts ss : Option (List String)) (si u : Option String) (k : Nat) :
    QueryEngine.search vs kg (Except.ok e) false q cts ss si u k true true =
      ((sortDescBy (fun h : SearchHit => h.score) (fun a b => decide (a ≤ b))
        (dedupInto (dedupInto [] [] (semantic_search vs e cts (k * 2))).1
          (dedupInto [] [] (semantic_search vs e cts (k * 2))).2
          (keyword_search kg q cts ss si u (k * 2))).1).take k) := rfl

/-- How `search` computes when the semantic branch raises. -/
theorem search_eq_semantic_error (vs : VectorStore) (kg : KG) (err : Unit) (q : String)
    (cts ss : Option (List String)) (si u : Option String) (k : Nat) :
    QueryEngine.search vs kg (Except.error err) false q cts ss si u k true true =
      ((sortDescBy (fun h : SearchHit => h.score) (fun a b => decide (a ≤ b))
        (dedupInto [] [] (keyword_search kg q cts ss si u (k * 2))).1).take k) := rfl

/-- How `search` computes when the keyword branch raises. -/
theorem search_eq_keyword_error (vs : VectorStore) (kg : KG) (e : List Rat) (q : String)
    (cts ss : Option (List String)) (si u : Option String) (k : Nat) :
    QueryEngine.search vs kg (Except.ok e) true q cts ss si u k true true =
      ((sortDescBy (fun h : SearchHit => h.score) (fun a b => decide (a ≤ b))
        (dedupInto [] [] (semantic_search vs e cts (k * 2))).1).take k) := rfl

/-- Both branches raising leaves nothing. -/
theorem search_eq_both_error (vs : VectorStore) (kg : KG) (err : Unit) (q : String)
    (cts ss : Option (List String)) (si u : Option String) (k : Nat) :
    QueryEngine.search vs kg (Except.error err) true q cts ss si u k true true = [] := by
  have he : QueryEngine.search vs kg (Except.error err) true q cts ss si u k true true
      = ([] : List SearchHit).take k := rfl
  rw [he, List.take_nil]

/-- Where a hit of the full hybrid search came from: the semantic candidate
list or the keyword candidate list. -/
theorem search_mem_branches (vs : VectorStore) (kg : KG) (embedq : Except Unit (List Rat))
    (kgExc : Bool) (q : String) (cts ss : Option (List String)) (si u : Option String)
    (k : Nat) {h : SearchHit}
    (hm : h ∈ QueryEngine.search vs kg embedq kgExc q cts ss si u k true true) :
    (∃ e, embedq = Except.ok e ∧ h ∈ semantic_search vs e cts (k * 2)) ∨
    h ∈ keyword_search kg q cts ss si u (k * 2) := by
  cases embedq with
  | error err =>
    cases kgExc with
    | true =>
      rw [search_eq_both_error] at hm
      cases hm
    | false =>
      rw [search_eq_semantic_error] at hm
      have h2 := (sortDescBy_perm (fun h : SearchHit => h.score)
        (fun a b => decide (a ≤ b)) _).mem_iff.mp (List.mem_of_mem_take hm)
      rcases dedupInto_spec (keyword_search kg q cts ss si u (k * 2)) [] [] with
        ⟨extra, he1, _, hsub, _, _⟩
      rw [he1] at h2
      rcases List.mem_append.mp h2 with h3 | h3
      · cases h3
      · exact Or.inr (hsub h h3).1
  | ok e =>
    cases kgExc with
    | true =>
      rw [search_eq_keyword_error] at hm
      have h2 := (sortDescBy_perm (fun h : SearchHit => h.score)
        (fun a b => decide (a ≤ b)) _).mem_iff.mp (List.mem_of_mem_take hm)
      rcases dedupInto_spec (semantic_search vs e cts (k * 2)) [] [] with
        ⟨extra, he1, _, hsub, _, _⟩
      rw [he1] at h2
      rcases List.mem_append.mp h2 with h3 | h3
      · cases h3
      · exact Or.inl ⟨e, rfl, (hsub h h3).1⟩
    | false =>
      rw [search_eq_both] at hm
      have h2 := (sortDescBy_perm (fun h : SearchHit => h.score)
        (fun a b => decide (a ≤ b)) _).mem_iff.mp (List.mem_of_mem_take hm)
      rcases dedupInto_spec (semantic_search vs e cts (k * 2)) [] [] with
        ⟨extra1, he11, _, hsub1, _, _⟩
      rcases dedupInto_spec (keyword_search kg q cts ss si u (k * 2))
          (dedupInto [] [] (semantic_search vs e cts (k * 2))).1
          (dedupInto [] [] (semantic_search vs e cts (k * 2))).2 with
        ⟨extra2, he21, _, hsub2, _, _⟩
      rw [he21] at h2
      rcases List.mem_append.mp h2 with h3 | h3
      · rw [he11] at h3
        rcases List.mem_append.mp h3 with h4 | h4
        · cases h4
        · exact Or.inl ⟨e, rfl, (hsub1 h h4).1⟩
      · exact Or.inr (hsub2 h h3).1

/-- Claim C8: every keyword-branch result in the hybrid search output has
score min((title_hits * 3 + body_hits) * 0.1, 0.8), where title_hits and
body_hits count case-insensitive non-overlapping occurrences of the query,
so title matches weigh three times body matches and a keyword score never
exceeds 0.8. -/
theorem C8_keyword_score_formula (vs : VectorStore) (kg : KG)
    (embedq : Except Unit (List Rat)) (kgExc : Bool) (q : String)
    (cts ss : Option (List String)) (si u : Option String) (k : Nat) (h : SearchHit)
    (hm : h ∈ QueryEngine.search vs kg embedq kgExc q cts ss si u k true true)
    (ht : h.search_type = "keyword") :
    ∃ r : ContentRow, h.row = some r ∧
      h.score = pymin (((countOcc (lowerStr (r.title.getD "")).data (lowerStr q).data * 3
        + countOcc (lowerStr (r.body.getD "")).data (lowerStr q).data : Nat) : Rat)
          * (1 / 10)) (8 / 10) ∧
      h.score ≤ 8 / 10 := by
  rcases search_mem_branches vs kg embedq kgExc q cts ss si u k hm with ⟨e, _, hsem⟩ | hkw
  · have hty := semantic_search_type vs e cts (k * 2) h hsem
    rw [hty] at ht
    exact absurd ht (by decide)
  · rcases keyword_search_mem kg q cts ss si u (k * 2) hkw with ⟨r, hrow, hscore, _⟩
    refine ⟨r, hrow, ?_, ?_⟩
    · rw [hscore]
      rfl
    · rw [hscore]
      simp only [keywordScore, pymin]
      split
      · rename_i hle
        exact hle
      · exact le_refl _

theorem C8_keyword_score_formula_witness :
    ∃ r : ContentRow, kwHitW.row = some r ∧
      kwHitW.score = pymin (((countOcc (lowerStr (r.title.getD "")).data
          (lowerStr "report").data * 3
        + countOcc (lowerStr (r.body.getD "")).data (lowerStr "report").data : Nat) : Rat)
          * (1 / 10)) (8 / 10) ∧
      kwHitW.score ≤ 8 / 10 :=
  C8_keyword_score_formula vsDocs kgDocs (Except.ok [1]) false "report" none none none none
    10 kwHitW (by decide) (by decide)

/-- Claim C10: the sources, since and until filters act only on the keyword
branch. First, with the keyword branch disabled the search output is
entirely independent of those arguments; second, a concrete restricted
search (sources gmail, a 2024-2025 window) still returns a semantic hit
whose stored row has source drive and a 2020 timestamp, outside both
bounds. -/
theorem C10_filters_only_keyword_branch :
    (∀ (vs : VectorStore) (kg : KG) (embedq : Except Unit (List Rat)) (kgExc : Bool)
      (q : String) (cts ss ss2 : Option (List String)) (si si2 u u2 : Option String)
      (k : Nat),
      QueryEngine.search vs kg embedq kgExc q cts ss si u k true false
        = QueryEngine.search vs kg embedq kgExc q cts ss2 si2 u2 k true false) ∧
    (∃ h ∈ QueryEngine.search vsDocs kgDocs (Except.ok [1]) false "zzz" none
        (some ["gmail"]) (some "2024-01-01T00:00:00") (some "2025-01-01T00:00:00") 10
        true true,
      h.search_type = "semantic" ∧ h.id = "drive:b:2" ∧
      ∃ r ∈ kgDocs.content, r.id = "drive:b:2" ∧ r.source = "drive" ∧
        ¬ "drive" ∈ (["gmail"] : List String) ∧
        r.timestamp = some "2020-01-01T00:00:00" ∧
        sqliteLe "2024-01-01T00:00:00" "2020-01-01T00:00:00" = false) := by
  constructor
  · intro vs kg embedq kgExc q cts ss ss2 si si2 u u2 k
    rfl
  · decide


/-- Claim C1 (amended): when both branches return a hit for the same
content id, the deduplicated merged list contains exactly one entry for
that id and it is a semantic-branch entry (so it carries the semantic
score); search returns that list sorted descending by score and truncated
to top_k — hence at most one entry for the id, and exactly one whenever
the merged list fits within top_k (truncation can otherwise drop it); and
a branch that raises degrades search to exactly the other branch. -/
theorem C1_search_fusion (vs : VectorStore) (kg : KG) (e : List Rat) (q : String)
    (cts ss : Option (List String)) (si u : Option String) (k : Nat) (cid : String)
    (s hk0 : SearchHit)
    (hs : s ∈ semantic_search vs e cts (k * 2)) (hsid : s.id = cid)
    (_hkm : hk0 ∈ keyword_search kg q cts ss si u (k * 2)) (_hkid : hk0.id = cid) :
    FusionSpec vs kg e q cts ss si u k cid := by
  rcases dedupInto_spec (semantic_search vs e cts (k * 2)) [] [] with
    ⟨x1, e11, e12, h13, h14, h15⟩
  have hd1 : (dedupInto [] [] (semantic_search vs e cts (k * 2))).1 = x1 := by
    simpa using e11
  have hd1s : (dedupInto [] [] (semantic_search vs e cts (k * 2))).2
      = x1.map (fun h => h.id) := by
    simpa using e12
  rcases dedupInto_spec (keyword_search kg q cts ss si u (k * 2))
      (dedupInto [] [] (semantic_search vs e cts (k * 2))).1
      (dedupInto [] [] (semantic_search vs e cts (k * 2))).2 with
    ⟨x2, e21, e22, h23, h24, h25⟩
  have hM : mergedCandidates vs kg e q cts ss si u k = x1 ++ x2 := by
    unfold mergedCandidates
    rw [e21, hd1]
  have hcid : cid ∈ x1.map (fun h => h.id) := by
    rcases h15 s hs with h | h
    · cases h
    · rw [hsid] at h
      exact h
  obtain ⟨h1, hh1x, hh1id⟩ : ∃ h1 ∈ x1, h1.id = cid := by
    rcases List.mem_map.mp hcid with ⟨y, hy, hyid⟩
    exact ⟨y, hy, hyid⟩
  have hfilter1 : x1.filter (fun x => x.id = cid) = [h1] :=
    filter_eq_single_of_nodup_map h14 hh1x hh1id
  have hfilter2 : x2.filter (fun x => x.id = cid) = [] := by
    refine List.filter_eq_nil_iff.mpr ?_
    intro b hb hbid
    have hnot := (h23 b hb).2
    rw [hd1s] at hnot
    have hbcid : b.id = cid := by simpa using hbid
    rw [hbcid] at hnot
    exact hnot hcid
  have hMfilter : (mergedCandidates vs kg e q cts ss si u k).filter
      (fun x => x.id = cid) = [h1] := by
    rw [hM, List.filter_append, hfilter1, hfilter2, List.append_nil]
  have hsearch : QueryEngine.search vs kg (Except.ok e) false q cts ss si u k true true
      = (sortDescBy (fun h : SearchHit => h.score) (fun a b => decide (a ≤ b))
          (mergedCandidates vs kg e q cts ss si u k)).take k :=
    search_eq_both vs kg e q cts ss si u k
  have hperm := sortDescBy_perm (fun h : SearchHit => h.score)
    (fun a b => decide (a ≤ b)) (mergedCandidates vs kg e q cts ss si u k)
  have hsortfilter : ((sortDescBy (fun h : SearchHit => h.score)
      (fun a b => decide (a ≤ b)) (mergedCandidates vs kg e q cts ss si u k)).filter
      (fun x => x.id = cid)).length = 1 := by
    rw [(hperm.filter (fun x => x.id = cid)).length_eq, hMfilter]
    rfl
  refine ⟨⟨h1, hMfilter, (h13 h1 hh1x).1,
      semantic_search_type vs e cts (k * 2) h1 (h13 h1 hh1x).1⟩, hsearch, ?_, ?_, ?_, ?_, ?_⟩
  · rw [hsearch]
    refine List.Pairwise.imp ?_ (List.Pairwise.sublist (List.take_sublist _ _)
      (pairwise_sortDescBy (fun h : SearchHit => h.score)
        (fun a b => decide (a ≤ b)) ratLe_total ratLe_trans _))
    intro a b hab
    simpa using hab
  · rw [hsearch]
    calc ((List.take k (sortDescBy (fun h : SearchHit => h.score)
          (fun a b => decide (a ≤ b)) (mergedCandidates vs kg e q cts ss si u k))).filter
          (fun x => x.id = cid)).length
        ≤ ((sortDescBy (fun h : SearchHit => h.score) (fun a b => decide (a ≤ b))
            (mergedCandidates vs kg e q cts ss si u k)).filter
            (fun x => x.id = cid)).length :=
          ((List.take_sublist _ _).filter _).length_le
      _ = 1 := hsortfilter
  · intro hlen
    rw [hsearch]
    have hslen : (sortDescBy (fun h : SearchHit => h.score) (fun a b => decide (a ≤ b))
        (mergedCandidates vs kg e q cts ss si u k)).length ≤ k := by
      rw [hperm.length_eq]
      exact hlen
    rw [List.take_of_length_le hslen]
    exact hsortfilter
  · intro err
    rfl
  · rfl

theorem C1_search_fusion_witness :
    FusionSpec vsDocs kgDocs [1] "report" none none none none 10 "gmail:acct:1" :=
  C1_search_fusion vsDocs kgDocs [1] "report" none none none none 10 "gmail:acct:1"
    semHitW kwHitDup (by decide) (by decide) (by decide) (by decide)

/-- Claim C1 counterexample: with top_k = 1, both branches hit content id
y, yet the returned list contains zero entries for y (the higher-scored x
fills the single slot), so search does not return exactly one entry for
every id hit by both branches. -/
theorem C1_exactly_one_fails_under_truncation :
    (∃ h ∈ semantic_search vsXY [1] none (1 * 2), h.id = "y") ∧
    (∃ h ∈ keyword_search kgY "needle" none none none none (1 * 2), h.id = "y") ∧
    ((QueryEngine.search vsXY kgY (Except.ok [1]) false "needle" none none none none 1
        true true).filter (fun x => x.id = "y")).length = 0 := by
  refine ⟨by decide, by decide, by decide⟩


end RatReducible

end Engram
